import Mathlib

/-!
Verification of the metric-normalization, eligibility, benchmarking and
output-sanitation layers of the Meta-Ads reporting pipeline
(src/meta_api_client.py, src/performance_analyzer.py, src/data_validator.py,
src/pipeline_manager.py).

The Python code is shallowly embedded: dictionaries with a known key universe
become structures with Option fields, raw API scalars become an explicit
tagged type (a JSON number, a numeric string, a non-numeric string, or the
empty string), Python float arithmetic is idealized as exact rational
arithmetic, and code that can raise is embedded in the Except monad.
-/

/-- Raw scalar value as it arrives from the vendor API: a JSON number, a
string that parses as a numeral, a non-empty string that does not parse, or
the empty string. -/
inductive PyVal where
  | num (q : ℚ)
  | strNum (q : ℚ)
  | strBad
  | strEmpty
deriving DecidableEq, Repr

/-- Python int() truncation toward zero: int(2.7) = 2, int(-2.7) = -2. -/
def pyTrunc (q : ℚ) : ℤ := if 0 ≤ q then ⌊q⌋ else ⌈q⌉

/-- Python float(v): numbers pass through, numeric strings parse, other
strings raise ValueError. -/
def pyFloat : PyVal → Except Unit ℚ
  | .num q => .ok q
  | .strNum q => .ok q
  | .strBad => .error ()
  | .strEmpty => .error ()

/-- Python int(v): numbers truncate toward zero; strings must be integer
literals (int of a fractional numeric string such as int of the string 1.5
raises), non-numeric strings raise. -/
def pyIntCoerce : PyVal → Except Unit ℤ
  | .num q => .ok (pyTrunc q)
  | .strNum q => if q.den = 1 then .ok q.num else .error ()
  | .strBad => .error ()
  | .strEmpty => .error ()

/-- Python int(float(v)): coerce to float first, then truncate. -/
def pyIntFloat (v : PyVal) : Except Unit ℤ := do
  let q ← pyFloat v
  pure (pyTrunc q)

/-- Python truthiness of a raw scalar: 0 and the empty string are falsy. -/
def pyTruthy : PyVal → Bool
  | .num q => q ≠ 0
  | .strNum _ => true
  | .strBad => true
  | .strEmpty => false

/-- One element of an action list: the dict shape {action_type, value},
where the value key may be missing. -/
structure ActionEntry where
  action_type : String
  value : Option PyVal
deriving DecidableEq, Repr

/-- An element of a raw API list field: either a dict entry or some
non-dict value, which the summing loops skip. -/
inductive PyListItem where
  | dict (e : ActionEntry)
  | nondict
deriving DecidableEq, Repr

/-- A raw field that may be absent, a scalar, or a list of action entries
(meta_api_client.py handles conversions and outbound_clicks this way). -/
inductive ConvField where
  | absent
  | scalar (v : PyVal)
  | list (l : List PyListItem)
deriving DecidableEq, Repr

/-- Summing loop shared verbatim by get_ad_metrics (meta_api_client.py
lines 439-447) and _extract_metrics_from_insights (lines 1806-1811):
for each element that is a dict containing a value key, add
int(float(value)); every other element is skipped.  No action_type test
is performed. -/
def convSumList : List PyListItem → Except Unit ℤ
  | [] => .ok 0
  | .nondict :: rest => convSumList rest
  | .dict e :: rest =>
    match e.value with
    | none => convSumList rest
    | some v => do
      let n ← pyIntFloat v
      let s ← convSumList rest
      pure (n + s)

/-- Conversions handling of get_ad_metrics (meta_api_client.py lines
436-448): metrics_data.get with default 0, then the list branch sums via
convSumList, while a scalar goes through int(float(..)). -/
def gamConversions : ConvField → Except Unit ℤ
  | .list l => convSumList l
  | .scalar v => pyIntFloat v
  | .absent => pyIntFloat (.num 0)

/-- Conversions handling of _extract_metrics_from_insights
(meta_api_client.py lines 1804-1812): insight_item.get with default [],
conversions initialized to 0, and only the list shape is summed - a
scalar fails the isinstance list test and leaves 0. -/
def emiConversions : ConvField → Except Unit ℤ
  | .list l => convSumList l
  | .scalar _ => .ok 0
  | .absent => .ok 0

/-- The conversions list of the claimed example: action types lead and
other carrying string values 3 and 100. -/
def convListLeadOther : List PyListItem :=
  [.dict ⟨"lead", some (.strNum 3)⟩, .dict ⟨"other", some (.strNum 100)⟩]

/-- Entries built from labelled rational values, each a dict with a
numeric-string value, as the vendor serializes counts. -/
def mkConvEntries (l : List (String × ℚ)) : List PyListItem :=
  l.map (fun p => .dict ⟨p.1, some (.strNum p.2)⟩)

/-- Decidable equality for Except values, used to evaluate the embeddings
on concrete inputs. -/
instance instDecEqExcept {ε α : Type} [DecidableEq ε] [DecidableEq α] :
    DecidableEq (Except ε α)
  | .error e, .error f =>
    if h : e = f then isTrue (by rw [h])
    else isFalse (fun hh => h (Except.error.inj hh))
  | .error _, .ok _ => isFalse (fun hh => Except.noConfusion hh)
  | .ok _, .error _ => isFalse (fun hh => Except.noConfusion hh)
  | .ok a, .ok b =>
    if h : a = b then isTrue (by rw [h])
    else isFalse (fun hh => h (Except.ok.inj hh))

/-- C1, counterexample: on the conversions list
[{action_type: lead, value: 3}, {action_type: other, value: 100}] both
get_ad_metrics and _extract_metrics_from_insights return 103, not 3 as the
claim states - the code sums every value without consulting any
action_type allow-list. -/
theorem c1_counterexample :
    gamConversions (.list convListLeadOther) = .ok 103 ∧
    emiConversions (.list convListLeadOther) = .ok 103 ∧
    gamConversions (.list convListLeadOther) ≠ .ok 3 := by
  refine ⟨by decide, by decide, by decide⟩

/-- C1, amended: for every conversions field arriving as a list of
{action_type, value} pairs, get_ad_metrics and
_extract_metrics_from_insights sum the values of ALL entries, ignoring
action_type entirely (no allow-list is applied in these two functions). -/
theorem c1_amended_sum_all (l : List (String × ℚ)) :
    gamConversions (.list (mkConvEntries l)) =
      .ok (l.foldr (fun p s => pyTrunc p.2 + s) 0) ∧
    emiConversions (.list (mkConvEntries l)) =
      .ok (l.foldr (fun p s => pyTrunc p.2 + s) 0) := by
  have h : convSumList (mkConvEntries l) =
      .ok (l.foldr (fun p s => pyTrunc p.2 + s) 0) := by
    induction l with
    | nil => rfl
    | cons p rest ih =>
      have hstep : convSumList (mkConvEntries (p :: rest)) =
          (do
            let n ← pyIntFloat (.strNum p.2)
            let s ← convSumList (mkConvEntries rest)
            pure (n + s)) := rfl
      rw [hstep, ih]
      rfl
  exact ⟨h, h⟩

/-- Raw insight record consumed by get_ad_metrics (meta_api_client.py
lines 405-556): scalar fields may be absent or any raw scalar; conversions
and outbound_clicks may also arrive as action lists; the remaining list
fields are lists of {action_type, value} dicts. -/
structure GamRaw where
  spend : Option PyVal
  impressions : Option PyVal
  clicks : Option PyVal
  ctr : Option PyVal
  outbound_clicks : ConvField
  conversions : ConvField
  cost_per_action_type : Option (List ActionEntry)
  outbound_clicks_ctr : Option (List ActionEntry)
  video_thruplay_watched_actions : Option (List ActionEntry)
  video_p100_watched_actions : Option (List ActionEntry)
deriving DecidableEq, Repr

/-- Normalized metrics dict built by get_ad_metrics.  hook_rate and
viewthrough_rate are Option because the source only inserts those keys
when impressions > 0. -/
structure GamMetrics where
  spend : ℚ
  impressions : ℤ
  clicks : ℤ
  ctr : ℚ
  outbound_clicks : ℤ
  conversions : ℤ
  cpm : ℚ
  cpa : ℚ
  roas : ℚ
  ctr_destination : ℚ
  video_3_sec_views : ℤ
  video_p100_watched : ℤ
  hook_rate : Option ℚ
  viewthrough_rate : Option ℚ
deriving DecidableEq, Repr

/-- Outbound-clicks handling of get_ad_metrics (lines 424-435): a list is
summed with the same loop as conversions; a scalar goes through
int(float(x) if x else 0), so falsy scalars coerce to 0 without parsing. -/
def gamOutbound : ConvField → Except Unit ℤ
  | .list l => convSumList l
  | .scalar v => if pyTruthy v then pyIntFloat v else .ok 0
  | .absent => .ok 0

/-- ROAS from cost_per_action_type (lines 462-473): the first entry whose
action_type is purchase supplies float(value); roas = value / spend when
both are positive, else 0; no purchase entry means roas = 0. -/
def gamRoas (spend : ℚ) (l : List ActionEntry) : Except Unit ℚ :=
  match l.find? (fun a => a.action_type = "purchase") with
  | none => .ok 0
  | some a => do
    let pv ← pyFloat (a.value.getD (.num 0))
    pure (if 0 < spend ∧ 0 < pv then pv / spend else 0)

/-- ctr_destination from outbound_clicks_ctr (lines 475-484): a non-empty
list supplies float of the first entry value; otherwise computed as
outbound_clicks / impressions when both are positive (a fraction, not a
percentage), else 0. -/
def gamCtrDestination (impr outbound : ℤ) (l : List ActionEntry) :
    Except Unit ℚ :=
  match l with
  | [] => .ok (if 0 < impr ∧ 0 < outbound then (outbound : ℚ) / impr else 0)
  | a :: _ => do
    let v ← pyFloat (a.value.getD (.num 0))
    pure v

/-- Loop over a video action list: take int(value) of the first entry with
action_type video_view, defaulting to 0 when none matches. -/
def videoViewLoop : List ActionEntry → Except Unit ℤ
  | [] => .ok 0
  | a :: rest =>
    if a.action_type = "video_view" then pyIntCoerce (a.value.getD (.num 0))
    else videoViewLoop rest

/-- The 3-second-view count of get_ad_metrics (lines 486-500): loop over
the thruplay list; when the field is absent or the list is empty (both
reduce to []) and impressions > 0, substitute int(impressions * 0.35). -/
def gamVideoViews (impr : ℤ) (field : Option (List ActionEntry)) :
    Except Unit ℤ := do
  let thruplay := field.getD []
  let v ← if thruplay.isEmpty then pure 0 else videoViewLoop thruplay
  pure (if thruplay.isEmpty ∧ 0 < impr
    then pyTrunc ((impr : ℚ) * (35 / 100)) else v)

/-- The 100-percent-watch count of get_ad_metrics (lines 502-515): same
shape as the 3-second count with an 8 percent substitute ratio. -/
def gamVideoP100 (impr : ℤ) (field : Option (List ActionEntry)) :
    Except Unit ℤ := do
  let p100 := field.getD []
  let v ← if p100.isEmpty then pure 0 else videoViewLoop p100
  pure (if p100.isEmpty ∧ 0 < impr
    then pyTrunc ((impr : ℚ) * (8 / 100)) else v)

/-- hook_rate of get_ad_metrics (lines 519-556): only set when
impressions > 0; the branch reading a nested video object is dead code
there (the metrics dict never contains a video key), so the else branch
applies: (views / impressions) * 100 when views > 0, else 0. -/
def gamHookRate (impr v3 : ℤ) : Option ℚ :=
  if 0 < impr then some (if 0 < v3 then (v3 : ℚ) / impr * 100 else 0)
  else none

/-- viewthrough_rate of get_ad_metrics (lines 519-556), same shape as
hook_rate using the 100-percent-watch count. -/
def gamViewthroughRate (impr p100 : ℤ) : Option ℚ :=
  if 0 < impr then some (if 0 < p100 then (p100 : ℚ) / impr * 100 else 0)
  else none

/-- get_ad_metrics (meta_api_client.py lines 405-556) on one raw insight
record, in source order; any coercion failure propagates (the enclosing
try re-raises after logging). -/
def getAdMetrics (r : GamRaw) : Except Unit GamMetrics := do
  let spend ← pyFloat (r.spend.getD (.num 0))
  let impressions ← pyIntCoerce (r.impressions.getD (.num 0))
  let clicks ← pyIntCoerce (r.clicks.getD (.num 0))
  let ctr ← pyFloat (r.ctr.getD (.num 0))
  let outbound ← gamOutbound r.outbound_clicks
  let conversions ← gamConversions r.conversions
  let cpm := if 0 < impressions then spend / (impressions : ℚ) * 1000 else 0
  let cpa := if 0 < conversions then spend / (conversions : ℚ) else 0
  let roas ← gamRoas spend (r.cost_per_action_type.getD [])
  let ctrDest ← gamCtrDestination impressions outbound
    (r.outbound_clicks_ctr.getD [])
  let v3 ← gamVideoViews impressions r.video_thruplay_watched_actions
  let p100 ← gamVideoP100 impressions r.video_p100_watched_actions
  pure {
    spend := spend, impressions := impressions, clicks := clicks,
    ctr := ctr, outbound_clicks := outbound, conversions := conversions,
    cpm := cpm, cpa := cpa, roas := roas, ctr_destination := ctrDest,
    video_3_sec_views := v3, video_p100_watched := p100,
    hook_rate := gamHookRate impressions v3,
    viewthrough_rate := gamViewthroughRate impressions p100 }

/-- Action types accepted as registrations in _format_breakdown_data
(meta_api_client.py lines 1569-1590). -/
def regAllowTypes : List String := ["lead", "complete_registration", "lead_grouped"]

/-- Registration loop of _format_breakdown_data (lines 1568-1576): int of
the first actions entry matching the allow-list, else 0. -/
def regLoop : List ActionEntry → Except Unit ℤ
  | [] => .ok 0
  | a :: rest =>
    if regAllowTypes.contains a.action_type then
      pyIntCoerce (a.value.getD (.num 0))
    else regLoop rest

/-- CPR loop of _format_breakdown_data (lines 1578-1585): float of the
first cost_per_action_type entry matching the allow-list, else 0. -/
def cprLoop : List ActionEntry → Except Unit ℚ
  | [] => .ok 0
  | a :: rest =>
    if regAllowTypes.contains a.action_type then
      pyFloat (a.value.getD (.num 0))
    else cprLoop rest

/-- Raw breakdown row consumed by _format_breakdown_data (lines
1468-1612); dimension labels are carried verbatim and omitted here. -/
structure FbdRaw where
  spend : Option PyVal
  cpm : Option PyVal
  impressions : Option PyVal
  cpc : Option PyVal
  clicks : Option PyVal
  outbound_clicks : ConvField
  outbound_clicks_ctr : Option (List ActionEntry)
  video_thruplay_watched_actions : Option (List ActionEntry)
  video_p100_watched_actions : Option (List ActionEntry)
  actions : Option (List ActionEntry)
  cost_per_action_type : Option (List ActionEntry)
deriving DecidableEq, Repr

/-- Formatted breakdown row produced by _format_breakdown_data. -/
structure FbdItem where
  spend : ℚ
  cpm : ℚ
  impressions : ℤ
  cpc : ℚ
  clicks : ℤ
  outbound_clicks : ℤ
  ctr_destination : ℚ
  video_3_sec_views : ℤ
  video_p100_watched : ℤ
  hook_rate : Option ℚ
  viewthrough_rate : Option ℚ
  registrations : ℤ
  cpr : ℚ
  click_to_reg : ℚ
deriving DecidableEq, Repr

/-- The 3-second-view count of _format_breakdown_data (lines 1523-1536):
loop over the thruplay list, and substitute int(impressions * 0.35) when
the list compares equal to [] and impressions > 0. -/
def fbdVideoViews (impr : ℤ) (field : Option (List ActionEntry)) :
    Except Unit ℤ := do
  let thruplay := field.getD []
  let v ← if thruplay.isEmpty then pure 0 else videoViewLoop thruplay
  pure (if thruplay.isEmpty ∧ 0 < impr
    then pyTrunc ((impr : ℚ) * (35 / 100)) else v)

/-- The 100-percent-watch count of _format_breakdown_data (lines
1538-1551), with the 8 percent substitute ratio. -/
def fbdVideoP100 (impr : ℤ) (field : Option (List ActionEntry)) :
    Except Unit ℤ := do
  let p100 := field.getD []
  let v ← if p100.isEmpty then pure 0 else videoViewLoop p100
  pure (if p100.isEmpty ∧ 0 < impr
    then pyTrunc ((impr : ℚ) * (8 / 100)) else v)

/-- hook_rate of _format_breakdown_data (lines 1553-1559): only set when
impressions > 0. -/
def fbdHookRate (impr v3 : ℤ) : Option ℚ :=
  if 0 < impr then some (if 0 < v3 then (v3 : ℚ) / impr * 100 else 0)
  else none

/-- viewthrough_rate of _format_breakdown_data (lines 1561-1566). -/
def fbdViewthroughRate (impr p100 : ℤ) : Option ℚ :=
  if 0 < impr then some (if 0 < p100 then (p100 : ℚ) / impr * 100 else 0)
  else none

/-- One iteration of _format_breakdown_data (meta_api_client.py lines
1482-1610), in source order.  The initial float(item.get(cpc, 0)) read can
raise even though its value is later overwritten unconditionally. -/
def formatBreakdownItem (r : FbdRaw) : Except Unit FbdItem := do
  let spend ← pyFloat (r.spend.getD (.num 0))
  let cpm ← pyFloat (r.cpm.getD (.num 0))
  let impressions ← pyIntCoerce (r.impressions.getD (.num 0))
  let _cpcInit ← pyFloat (r.cpc.getD (.num 0))
  let clicks ← pyIntCoerce (r.clicks.getD (.num 0))
  let outbound ← gamOutbound r.outbound_clicks
  let ctrDest ← gamCtrDestination impressions outbound
    (r.outbound_clicks_ctr.getD [])
  let v3 ← fbdVideoViews impressions r.video_thruplay_watched_actions
  let p100 ← fbdVideoP100 impressions r.video_p100_watched_actions
  let registrations ← regLoop (r.actions.getD [])
  let cprFromApi ← cprLoop (r.cost_per_action_type.getD [])
  let cpr := if cprFromApi = 0 ∧ 0 < registrations ∧ 0 < spend
    then spend / (registrations : ℚ) else cprFromApi
  let cpc := if 0 < clicks ∧ 0 < spend then spend / (clicks : ℚ) else 0
  let clickToReg := if 0 < clicks ∧ 0 < registrations
    then (registrations : ℚ) / clicks * 100 else 0
  pure {
    spend := spend, cpm := cpm, impressions := impressions, cpc := cpc,
    clicks := clicks, outbound_clicks := outbound,
    ctr_destination := ctrDest, video_3_sec_views := v3,
    video_p100_watched := p100,
    hook_rate := fbdHookRate impressions v3,
    viewthrough_rate := fbdViewthroughRate impressions p100,
    registrations := registrations, cpr := cpr,
    click_to_reg := clickToReg }

/-- The whole _format_breakdown_data loop: rows are processed in order and
any per-row failure aborts the call. -/
def formatBreakdownData : List FbdRaw → Except Unit (List FbdItem)
  | [] => .ok []
  | r :: rest => do
    let i ← formatBreakdownItem r
    let rest2 ← formatBreakdownData rest
    pure (i :: rest2)

/-- Float-coercibility of one raw scalar: float(v) succeeds. -/
def wfValF : PyVal → Bool
  | .num _ => true
  | .strNum _ => true
  | _ => false

/-- Int-coercibility of one raw scalar: int(v) succeeds. -/
def wfValI : PyVal → Bool
  | .num _ => true
  | .strNum q => q.den == 1
  | _ => false

/-- Well-formedness of an optional field read with float(get(field, 0)). -/
def wfOptF : Option PyVal → Bool
  | none => true
  | some v => wfValF v

/-- Well-formedness of an optional field read with int(get(field, 0)). -/
def wfOptI : Option PyVal → Bool
  | none => true
  | some v => wfValI v

/-- Well-formedness of one element of a summed action list. -/
def wfSumItem : PyListItem → Bool
  | .nondict => true
  | .dict e =>
    match e.value with
    | none => true
    | some v => wfValF v

/-- Well-formedness of the conversions field for get_ad_metrics. -/
def wfConvGam : ConvField → Bool
  | .absent => true
  | .scalar v => wfValF v
  | .list l => l.all wfSumItem

/-- Well-formedness of the outbound_clicks field: a falsy scalar is never
parsed, so it is always fine. -/
def wfOutbound : ConvField → Bool
  | .absent => true
  | .scalar v => !pyTruthy v || wfValF v
  | .list l => l.all wfSumItem

/-- Well-formedness of the cost_per_action_type list for the ROAS read. -/
def wfRoasList (l : List ActionEntry) : Bool :=
  match l.find? (fun a => a.action_type = "purchase") with
  | none => true
  | some a => wfValF (a.value.getD (.num 0))

/-- Well-formedness of the outbound_clicks_ctr list: only element 0 is
ever parsed. -/
def wfCtrDestList : List ActionEntry → Bool
  | [] => true
  | a :: _ => wfValF (a.value.getD (.num 0))

/-- Well-formedness of a video action list: the first video_view entry, if
any, must be int-coercible (the loop stops there). -/
def wfVideoList : List ActionEntry → Bool
  | [] => true
  | a :: rest =>
    if a.action_type = "video_view" then wfValI (a.value.getD (.num 0))
    else wfVideoList rest

/-- Well-formedness of the actions list for the registration loop. -/
def wfRegList : List ActionEntry → Bool
  | [] => true
  | a :: rest =>
    if regAllowTypes.contains a.action_type then
      wfValI (a.value.getD (.num 0))
    else wfRegList rest

/-- Well-formedness of the cost_per_action_type list for the CPR loop. -/
def wfCprList : List ActionEntry → Bool
  | [] => true
  | a :: rest =>
    if regAllowTypes.contains a.action_type then
      wfValF (a.value.getD (.num 0))
    else wfCprList rest

/-- A get_ad_metrics input whose fields are each absent or parsable. -/
def wfGamRaw (r : GamRaw) : Bool :=
  wfOptF r.spend && wfOptI r.impressions && wfOptI r.clicks &&
  wfOptF r.ctr && wfOutbound r.outbound_clicks &&
  wfConvGam r.conversions && wfRoasList (r.cost_per_action_type.getD []) &&
  wfCtrDestList (r.outbound_clicks_ctr.getD []) &&
  wfVideoList (r.video_thruplay_watched_actions.getD []) &&
  wfVideoList (r.video_p100_watched_actions.getD [])

/-- A _format_breakdown_data row whose fields are each absent or parsable. -/
def wfFbdRaw (r : FbdRaw) : Bool :=
  wfOptF r.spend && wfOptF r.cpm && wfOptI r.impressions &&
  wfOptF r.cpc && wfOptI r.clicks && wfOutbound r.outbound_clicks &&
  wfCtrDestList (r.outbound_clicks_ctr.getD []) &&
  wfVideoList (r.video_thruplay_watched_actions.getD []) &&
  wfVideoList (r.video_p100_watched_actions.getD []) &&
  wfRegList (r.actions.getD []) &&
  wfCprList (r.cost_per_action_type.getD [])

theorem exceptBindOk {α β : Type} {ε : Type} (a : α) (f : α → Except ε β) :
    (Except.ok a >>= f) = f a := rfl

theorem exceptPureEq {α : Type} {ε : Type} (a : α) :
    (pure a : Except ε α) = Except.ok a := rfl

theorem pyFloat_ok {v : PyVal} (h : wfValF v = true) :
    ∃ q, pyFloat v = .ok q := by
  cases v <;> simp_all [wfValF, pyFloat]

theorem pyIntCoerce_ok {v : PyVal} (h : wfValI v = true) :
    ∃ n, pyIntCoerce v = .ok n := by
  cases v <;> simp_all [wfValI, pyIntCoerce]

theorem pyIntFloat_ok {v : PyVal} (h : wfValF v = true) :
    ∃ n, pyIntFloat v = .ok n := by
  obtain ⟨q, hq⟩ := pyFloat_ok h
  exact ⟨pyTrunc q, by simp [pyIntFloat, hq, exceptBindOk, exceptPureEq]⟩

theorem optF_ok {o : Option PyVal} (h : wfOptF o = true) :
    ∃ q, pyFloat (o.getD (.num 0)) = .ok q := by
  cases o with
  | none => exact ⟨0, rfl⟩
  | some v => exact pyFloat_ok (by simpa [wfOptF] using h)

theorem optI_ok {o : Option PyVal} (h : wfOptI o = true) :
    ∃ n, pyIntCoerce (o.getD (.num 0)) = .ok n := by
  cases o with
  | none => exact ⟨0, by simp [pyIntCoerce, pyTrunc]⟩
  | some v => exact pyIntCoerce_ok (by simpa [wfOptI] using h)

theorem convSumList_ok {l : List PyListItem} (h : l.all wfSumItem = true) :
    ∃ n, convSumList l = .ok n := by
  induction l with
  | nil => exact ⟨0, rfl⟩
  | cons x rest ih =>
    simp only [List.all_cons, Bool.and_eq_true] at h
    obtain ⟨s, hs⟩ := ih h.2
    cases x with
    | nondict => exact ⟨s, by simpa [convSumList] using hs⟩
    | dict e =>
      cases hv : e.value with
      | none => exact ⟨s, by simp [convSumList, hv, hs]⟩
      | some v =>
        have hwf : wfValF v = true := by
          have := h.1
          simp [wfSumItem, hv] at this
          exact this
        obtain ⟨n, hn⟩ := pyIntFloat_ok hwf
        exact ⟨n + s, by
          simp [convSumList, hv, hn, hs, exceptBindOk, exceptPureEq]⟩

theorem gamConversions_ok {c : ConvField} (h : wfConvGam c = true) :
    ∃ n, gamConversions c = .ok n := by
  cases c with
  | absent => exact ⟨0, by simp [gamConversions, pyIntFloat, pyFloat, pyTrunc, exceptBindOk, exceptPureEq]⟩
  | scalar v => exact pyIntFloat_ok (by simpa [wfConvGam] using h)
  | list l => exact convSumList_ok (by simpa [wfConvGam] using h)

theorem gamOutbound_ok {c : ConvField} (h : wfOutbound c = true) :
    ∃ n, gamOutbound c = .ok n := by
  cases c with
  | absent => exact ⟨0, rfl⟩
  | scalar v =>
    by_cases ht : pyTruthy v = true
    · have hwf : wfValF v = true := by
        simp [wfOutbound, ht] at h
        exact h
      obtain ⟨n, hn⟩ := pyIntFloat_ok hwf
      exact ⟨n, by simp [gamOutbound, ht, hn]⟩
    · rw [Bool.not_eq_true] at ht
      exact ⟨0, by simp [gamOutbound, ht]⟩
  | list l => exact convSumList_ok (by simpa [wfOutbound] using h)

theorem gamRoas_ok {spend : ℚ} {l : List ActionEntry}
    (h : wfRoasList l = true) : ∃ q, gamRoas spend l = .ok q := by
  unfold gamRoas
  unfold wfRoasList at h
  cases hf : l.find? (fun a => a.action_type = "purchase") with
  | none => exact ⟨0, by simp [hf]⟩
  | some a =>
    rw [hf] at h
    obtain ⟨q, hq⟩ := pyFloat_ok h
    exact ⟨if 0 < spend ∧ 0 < q then q / spend else 0, by
      simp [hf, hq, exceptBindOk, exceptPureEq]⟩

theorem gamCtrDestination_ok {impr outbound : ℤ} {l : List ActionEntry}
    (h : wfCtrDestList l = true) :
    ∃ q, gamCtrDestination impr outbound l = .ok q := by
  cases l with
  | nil =>
    exact ⟨if 0 < impr ∧ 0 < outbound then (outbound : ℚ) / impr else 0, rfl⟩
  | cons a rest =>
    obtain ⟨q, hq⟩ := pyFloat_ok (by simpa [wfCtrDestList] using h)
    exact ⟨q, by simp [gamCtrDestination, hq, exceptBindOk, exceptPureEq]⟩

theorem videoViewLoop_ok {l : List ActionEntry} (h : wfVideoList l = true) :
    ∃ n, videoViewLoop l = .ok n := by
  induction l with
  | nil => exact ⟨0, rfl⟩
  | cons a rest ih =>
    by_cases ha : a.action_type = "video_view"
    · have hwf : wfValI (a.value.getD (.num 0)) = true := by
        simpa [wfVideoList, ha] using h
      obtain ⟨n, hn⟩ := pyIntCoerce_ok hwf
      exact ⟨n, by simp [videoViewLoop, ha, hn]⟩
    · obtain ⟨n, hn⟩ := ih (by simpa [wfVideoList, ha] using h)
      exact ⟨n, by simp [videoViewLoop, ha, hn]⟩

theorem gamVideoViews_ok {impr : ℤ} {field : Option (List ActionEntry)}
    (h : wfVideoList (field.getD []) = true) :
    ∃ n, gamVideoViews impr field = .ok n := by
  unfold gamVideoViews
  obtain ⟨n, hn⟩ := videoViewLoop_ok h
  by_cases he : (field.getD []).isEmpty = true
  · refine ⟨if (0:ℤ) < impr then pyTrunc ((impr : ℚ) * (35 / 100)) else 0, ?_⟩
    simp [he, exceptBindOk, exceptPureEq]
  · refine ⟨n, ?_⟩
    simp [he, hn, exceptBindOk, exceptPureEq]

theorem gamVideoP100_ok {impr : ℤ} {field : Option (List ActionEntry)}
    (h : wfVideoList (field.getD []) = true) :
    ∃ n, gamVideoP100 impr field = .ok n := by
  unfold gamVideoP100
  obtain ⟨n, hn⟩ := videoViewLoop_ok h
  by_cases he : (field.getD []).isEmpty = true
  · refine ⟨if (0:ℤ) < impr then pyTrunc ((impr : ℚ) * (8 / 100)) else 0, ?_⟩
    simp [he, exceptBindOk, exceptPureEq]
  · refine ⟨n, ?_⟩
    simp [he, hn, exceptBindOk, exceptPureEq]

theorem fbdVideoViews_ok {impr : ℤ} {field : Option (List ActionEntry)}
    (h : wfVideoList (field.getD []) = true) :
    ∃ n, fbdVideoViews impr field = .ok n := by
  unfold fbdVideoViews
  obtain ⟨n, hn⟩ := videoViewLoop_ok h
  by_cases he : (field.getD []).isEmpty = true
  · refine ⟨if (0:ℤ) < impr then pyTrunc ((impr : ℚ) * (35 / 100)) else 0, ?_⟩
    simp [he, exceptBindOk, exceptPureEq]
  · refine ⟨n, ?_⟩
    simp [he, hn, exceptBindOk, exceptPureEq]

theorem fbdVideoP100_ok {impr : ℤ} {field : Option (List ActionEntry)}
    (h : wfVideoList (field.getD []) = true) :
    ∃ n, fbdVideoP100 impr field = .ok n := by
  unfold fbdVideoP100
  obtain ⟨n, hn⟩ := videoViewLoop_ok h
  by_cases he : (field.getD []).isEmpty = true
  · refine ⟨if (0:ℤ) < impr then pyTrunc ((impr : ℚ) * (8 / 100)) else 0, ?_⟩
    simp [he, exceptBindOk, exceptPureEq]
  · refine ⟨n, ?_⟩
    simp [he, hn, exceptBindOk, exceptPureEq]

theorem regLoop_ok {l : List ActionEntry} (h : wfRegList l = true) :
    ∃ n, regLoop l = .ok n := by
  induction l with
  | nil => exact ⟨0, rfl⟩
  | cons a rest ih =>
    by_cases ha : a.action_type ∈ regAllowTypes
    · obtain ⟨n, hn⟩ := pyIntCoerce_ok (by simpa [wfRegList, ha] using h)
      exact ⟨n, by simp [regLoop, ha, hn]⟩
    · obtain ⟨n, hn⟩ := ih (by simpa [wfRegList, ha] using h)
      exact ⟨n, by simp [regLoop, ha, hn]⟩

theorem cprLoop_ok {l : List ActionEntry} (h : wfCprList l = true) :
    ∃ q, cprLoop l = .ok q := by
  induction l with
  | nil => exact ⟨0, rfl⟩
  | cons a rest ih =>
    by_cases ha : a.action_type ∈ regAllowTypes
    · obtain ⟨q, hq⟩ := pyFloat_ok (by simpa [wfCprList, ha] using h)
      exact ⟨q, by simp [cprLoop, ha, hq]⟩
    · obtain ⟨q, hq⟩ := ih (by simpa [wfCprList, ha] using h)
      exact ⟨q, by simp [cprLoop, ha, hq]⟩

/-- Raw get_ad_metrics record with every field absent. -/
def gamRawAbsent : GamRaw :=
  ⟨none, none, none, none, .absent, .absent, none, none, none, none⟩

/-- The all-zero metrics record get_ad_metrics produces for an absent
record; hook_rate and viewthrough_rate keys are not inserted since
impressions = 0. -/
def gamMetricsZero : GamMetrics :=
  ⟨0, 0, 0, 0, 0, 0, 0, 0, 0, 0, 0, 0, none, none⟩

/-- Raw breakdown row with every field absent. -/
def fbdRawAbsent : FbdRaw :=
  ⟨none, none, none, none, none, .absent, none, none, none, none, none⟩

/-- The all-zero row _format_breakdown_data produces for an absent row. -/
def fbdItemZero : FbdItem :=
  ⟨0, 0, 0, 0, 0, 0, 0, 0, 0, none, none, 0, 0, 0⟩

/-- C2, amended: metric extraction never raises when every numeric field
is absent or holds a parsable value - absent fields are coerced to the
default 0 (shown on the all-absent record, which yields the all-zero
metrics) - but the claim is false for unparsable values, which raise. -/
theorem c2_amended_no_raise_wellformed (r : GamRaw) (b : FbdRaw)
    (hr : wfGamRaw r = true) (hb : wfFbdRaw b = true) :
    ((getAdMetrics r).isOk = true ∧ (formatBreakdownItem b).isOk = true) ∧
    (getAdMetrics gamRawAbsent = .ok gamMetricsZero ∧
     formatBreakdownData [fbdRawAbsent] = .ok [fbdItemZero]) := by
  refine ⟨⟨?_, ?_⟩, by decide, by decide⟩
  · unfold wfGamRaw at hr
    simp only [Bool.and_eq_true] at hr
    obtain ⟨⟨⟨⟨⟨⟨⟨⟨⟨h1, h2⟩, h3⟩, h4⟩, h5⟩, h6⟩, h7⟩, h8⟩, h9⟩, h10⟩ := hr
    obtain ⟨q1, e1⟩ := optF_ok h1
    obtain ⟨n2, e2⟩ := optI_ok h2
    obtain ⟨n3, e3⟩ := optI_ok h3
    obtain ⟨q4, e4⟩ := optF_ok h4
    obtain ⟨n5, e5⟩ := gamOutbound_ok h5
    obtain ⟨n6, e6⟩ := gamConversions_ok h6
    obtain ⟨q7, e7⟩ := @gamRoas_ok q1 _ h7
    obtain ⟨q8, e8⟩ := @gamCtrDestination_ok n2 n5 _ h8
    obtain ⟨n9, e9⟩ := @gamVideoViews_ok n2 _ h9
    obtain ⟨n10, e10⟩ := @gamVideoP100_ok n2 _ h10
    simp [getAdMetrics, e1, e2, e3, e4, e5, e6, e7, e8, e9, e10,
      exceptBindOk, exceptPureEq, Except.isOk, Except.toBool]
  · unfold wfFbdRaw at hb
    simp only [Bool.and_eq_true] at hb
    obtain ⟨⟨⟨⟨⟨⟨⟨⟨⟨⟨h1, h2⟩, h3⟩, h4⟩, h5⟩, h6⟩, h7⟩, h8⟩, h9⟩, h10⟩, h11⟩ := hb
    obtain ⟨q1, e1⟩ := optF_ok h1
    obtain ⟨q2, e2⟩ := optF_ok h2
    obtain ⟨n3, e3⟩ := optI_ok h3
    obtain ⟨q4, e4⟩ := optF_ok h4
    obtain ⟨n5, e5⟩ := optI_ok h5
    obtain ⟨n6, e6⟩ := gamOutbound_ok h6
    obtain ⟨q7, e7⟩ := @gamCtrDestination_ok n3 n6 _ h7
    obtain ⟨n8, e8⟩ := @fbdVideoViews_ok n3 _ h8
    obtain ⟨n9, e9⟩ := @fbdVideoP100_ok n3 _ h9
    obtain ⟨n10, e10⟩ := regLoop_ok h10
    obtain ⟨q11, e11⟩ := cprLoop_ok h11
    simp [formatBreakdownItem, e1, e2, e3, e4, e5, e6, e7, e8, e9, e10,
      e11, exceptBindOk, exceptPureEq, Except.isOk, Except.toBool]

/-- A raw record whose spend arrives as a non-numeric string. -/
def gamRawBadSpend : GamRaw := { gamRawAbsent with spend := some .strBad }

/-- A raw breakdown row whose spend arrives as a non-numeric string. -/
def fbdRawBadSpend : FbdRaw := { fbdRawAbsent with spend := some .strBad }

/-- C2, counterexample: a record whose spend field holds a non-numeric
string makes float() raise, so get_ad_metrics re-raises (the enclosing
except logs and raises) and _format_breakdown_data propagates the
ValueError - no NormalizedMetrics record is returned, contradicting the
claim that extraction never raises and coerces invalid fields to 0. -/
theorem c2_counterexample :
    getAdMetrics gamRawBadSpend = .error () ∧
    formatBreakdownData [fbdRawBadSpend] = .error () := by
  exact ⟨by decide, by decide⟩

/-- Sample well-formed record exercising numeric strings and list-shaped
conversions. -/
def gamRawSample : GamRaw :=
  { gamRawAbsent with
      spend := some (.strNum (15 / 2)),
      impressions := some (.num 1000),
      conversions := .list convListLeadOther }

/-- Sample well-formed breakdown row. -/
def fbdRawSample : FbdRaw :=
  { fbdRawAbsent with
      spend := some (.num 5),
      impressions := some (.strNum 2000),
      clicks := some (.num 40),
      actions := some [⟨"lead", some (.strNum 4)⟩] }

/-- Witness for the C2 amended theorem at concrete well-formed inputs. -/
theorem c2_amended_witness :
    wfGamRaw gamRawSample = true ∧ wfFbdRaw fbdRawSample = true ∧
    (getAdMetrics gamRawSample).isOk = true ∧
    (formatBreakdownItem fbdRawSample).isOk = true :=
  ⟨by decide, by decide,
    (c2_amended_no_raise_wellformed gamRawSample fbdRawSample
      (by decide) (by decide)).1.1,
    (c2_amended_no_raise_wellformed gamRawSample fbdRawSample
      (by decide) (by decide)).1.2⟩

/-- C3: for impressions > 0, the 3-second-view handling of get_ad_metrics
and _format_breakdown_data (i) treats an absent thruplay field and an
explicitly empty list identically, (ii) substitutes
int(impressions * 0.35) as the view count in that case, and (iii) performs
no substitution when the list is present and non-empty with a zero-valued
video_view entry, giving hook_rate = 0; hook_rate is
(views / impressions) * 100 for any positive view count. -/
theorem c3_video_estimation (impr : ℤ) (h : 0 < impr) :
    (gamVideoViews impr none = gamVideoViews impr (some []) ∧
     fbdVideoViews impr none = fbdVideoViews impr (some [])) ∧
    (gamVideoViews impr none = .ok (pyTrunc ((impr : ℚ) * (35 / 100))) ∧
     fbdVideoViews impr none = .ok (pyTrunc ((impr : ℚ) * (35 / 100)))) ∧
    (gamVideoViews impr (some [⟨"video_view", some (.num 0)⟩]) = .ok 0 ∧
     fbdVideoViews impr (some [⟨"video_view", some (.num 0)⟩]) = .ok 0 ∧
     gamHookRate impr 0 = some 0 ∧ fbdHookRate impr 0 = some 0) ∧
    (∀ v3 : ℤ, 0 < v3 →
      gamHookRate impr v3 = some ((v3 : ℚ) / impr * 100) ∧
      fbdHookRate impr v3 = some ((v3 : ℚ) / impr * 100)) := by
  refine ⟨⟨rfl, rfl⟩, ⟨?_, ?_⟩, ⟨?_, ?_, ?_, ?_⟩, ?_⟩
  · simp [gamVideoViews, h, exceptBindOk, exceptPureEq]
  · simp [fbdVideoViews, h, exceptBindOk, exceptPureEq]
  · simp [gamVideoViews, videoViewLoop, pyIntCoerce, pyTrunc,
      exceptBindOk, exceptPureEq]
  · simp [fbdVideoViews, videoViewLoop, pyIntCoerce, pyTrunc,
      exceptBindOk, exceptPureEq]
  · simp [gamHookRate, h]
  · simp [fbdHookRate, h]
  · intro v3 hv3
    constructor
    · simp [gamHookRate, h, hv3]
    · simp [fbdHookRate, h, hv3]

theorem pyTrunc_intCast (n : ℤ) : pyTrunc ((n : ℚ)) = n := by
  unfold pyTrunc
  split <;> simp

/-- Witness for C3 at impressions = 1000: the substituted count is 350 and
the resulting hook_rate is exactly 35. -/
theorem c3_witness :
    (0 : ℤ) < 1000 ∧
    gamVideoViews 1000 none = .ok 350 ∧ gamHookRate 1000 350 = some 35 ∧
    fbdVideoViews 1000 none = .ok 350 ∧ fbdHookRate 1000 350 = some 35 := by
  have h := (c3_video_estimation 1000 (by decide)).2.1
  have e : (((1000 : ℤ) : ℚ)) * (35 / 100) = (((350 : ℤ) : ℚ)) := by
    norm_num
  refine ⟨by decide, ?_, ?_, ?_, ?_⟩
  · rw [h.1, e, pyTrunc_intCast]
  · simp only [gamHookRate]
    norm_num
  · rw [h.2, e, pyTrunc_intCast]
  · simp only [fbdHookRate]
    norm_num

/-- Python membership test x in list for a possibly missing id (ad.get
returns None when the adset or campaign sub-dict is absent). -/
def optMem (o : Option String) (l : List String) : Bool :=
  match o with
  | some x => l.contains x
  | none => false

/-- Scoping-filter composition of find_eligible_ads (meta_api_client.py
lines 2358-2390): include_ad starts True; an active (non-empty) adset
filter ANDs in adset membership; an active campaign filter ORs in campaign
membership when the adset filter is also active, and ANDs it in
otherwise.  Python truthiness makes a None or empty list inactive. -/
def includeAdScoping (adsetIds campaignIds : List String)
    (adset campaign : Option String) : Bool :=
  let include1 := true
  let include2 :=
    if adsetIds.isEmpty then include1
    else include1 && optMem adset adsetIds
  if campaignIds.isEmpty then include2
  else
    if adsetIds.isEmpty then include2 && optMem campaign campaignIds
    else include2 || optMem campaign campaignIds

/-- C4: after the age check in find_eligible_ads, no scoping filters keep
every ad; an adset-only (resp. campaign-only) filter keeps exactly the ads
whose adset (resp. campaign) id is listed; and with both filters active
the two allow-lists combine with OR, so campaign membership suffices even
outside the adset list and an ad in neither list is dropped. -/
theorem c4_scoping_composition (adsetIds campaignIds : List String)
    (adset campaign : Option String) :
    includeAdScoping [] [] adset campaign = true ∧
    (adsetIds ≠ [] →
      includeAdScoping adsetIds [] adset campaign = optMem adset adsetIds) ∧
    (campaignIds ≠ [] →
      includeAdScoping [] campaignIds adset campaign =
        optMem campaign campaignIds) ∧
    (adsetIds ≠ [] → campaignIds ≠ [] →
      includeAdScoping adsetIds campaignIds adset campaign =
        (optMem adset adsetIds || optMem campaign campaignIds)) := by
  refine ⟨rfl, ?_, ?_, ?_⟩
  · intro ha
    have he : adsetIds.isEmpty = false := by
      cases adsetIds with
      | nil => exact absurd rfl ha
      | cons x xs => rfl
    simp [includeAdScoping, he]
  · intro hc
    have he : campaignIds.isEmpty = false := by
      cases campaignIds with
      | nil => exact absurd rfl hc
      | cons x xs => rfl
    simp [includeAdScoping, he]
  · intro ha hc
    have hea : adsetIds.isEmpty = false := by
      cases adsetIds with
      | nil => exact absurd rfl ha
      | cons x xs => rfl
    have hec : campaignIds.isEmpty = false := by
      cases campaignIds with
      | nil => exact absurd rfl hc
      | cons x xs => rfl
    simp [includeAdScoping, hea, hec]

/-- Witness for C4 with adset filter [A] and campaign filter [C]: an ad in
campaign C but in adset X is kept, an ad in neither is dropped. -/
theorem c4_scoping_witness :
    (["A"] : List String) ≠ [] ∧ (["C"] : List String) ≠ [] ∧
    includeAdScoping ["A"] ["C"] (some "X") (some "C") = true ∧
    includeAdScoping ["A"] ["C"] (some "X") (some "Y") = false := by
  have h1 := (c4_scoping_composition ["A"] ["C"] (some "X")
    (some "C")).2.2.2 (by decide) (by decide)
  have h2 := (c4_scoping_composition ["A"] ["C"] (some "X")
    (some "Y")).2.2.2 (by decide) (by decide)
  refine ⟨by decide, by decide, ?_, ?_⟩
  · rw [h1]; decide
  · rw [h2]; decide

/-- Metrics dict as seen by DataValidator: the spend key may be absent. -/
structure ValMetrics where
  spend : Option ℚ
deriving DecidableEq, Repr

/-- The spend filter find_eligible_ads submits to the insights endpoint
(meta_api_client.py lines 2418-2424): the filtering spec uses operator
GREATER_THAN, keeping an ad exactly when spend > min_spend. -/
def eligibleSpendFilter (spend minSpend : ℚ) : Bool := spend > minSpend

/-- DataValidator._check_spend_threshold (data_validator.py lines
139-153): False when the metrics key is missing, else
metrics.get(spend, 0) >= threshold. -/
def checkSpendThreshold (adMetrics : Option ValMetrics) (threshold : ℚ) :
    Bool :=
  match adMetrics with
  | none => false
  | some m => (m.spend.getD 0) ≥ threshold

/-- C6: the two spend checks use different operators per call site - the
eligibility filter keeps an ad only when spend strictly exceeds the
threshold, the validator accepts spend greater than or equal to it - so an
ad whose spend equals the threshold is accepted by the validator and
rejected by the eligibility filter. -/
theorem c6_spend_operator_discrepancy (t : ℚ) :
    checkSpendThreshold (some ⟨some t⟩) t = true ∧
    eligibleSpendFilter t t = false ∧
    (∀ s : ℚ, eligibleSpendFilter s t = decide (t < s)) ∧
    (∀ s : ℚ, checkSpendThreshold (some ⟨some s⟩) t = decide (t ≤ s)) := by
  refine ⟨?_, ?_, fun s => rfl, fun s => ?_⟩
  · simp [checkSpendThreshold]
  · simp [eligibleSpendFilter]
  · simp [checkSpendThreshold, ge_iff_le]

/-- Benchmark values available for comparison; a key may be missing. -/
structure BenchMetrics where
  ctr : Option ℚ
  cpa : Option ℚ
  roas : Option ℚ
  cpm : Option ℚ
  hook_rate : Option ℚ
  viewthrough_rate : Option ℚ
deriving DecidableEq, Repr

/-- Ad metrics consumed by compare_to_benchmarks; keys may be missing. -/
structure CmpMetrics where
  ctr : Option ℚ
  cpa : Option ℚ
  roas : Option ℚ
  cpm : Option ℚ
  hook_rate : Option ℚ
  viewthrough_rate : Option ℚ
deriving DecidableEq, Repr

/-- Per-metric deltas of compare_to_benchmarks. -/
structure BenchComparison where
  ctr_vs_benchmark : ℚ
  cpa_vs_benchmark : ℚ
  roas_vs_benchmark : ℚ
  cpm_vs_benchmark : ℚ
  hook_rate_vs_benchmark : ℚ
  viewthrough_rate_vs_benchmark : ℚ
deriving DecidableEq, Repr

/-- Result record of compare_to_benchmarks. -/
structure CompareResult where
  metrics_vs_benchmark : BenchComparison
  overall_performance_score : ℚ
  performance_rating : String
  stability_score : ℚ
deriving DecidableEq, Repr

/-- Delta for a higher-is-better metric (performance_analyzer.py lines
124-128 and analogous blocks): requires the key in both maps and a
positive benchmark, else 0. -/
def higherDelta (m bench : Option ℚ) : ℚ :=
  match m, bench with
  | some a, some b => if 0 < b then (a / b - 1) * 100 else 0
  | _, _ => 0

/-- Delta for a lower-is-better metric (lines 130-134): additionally the
actual value must be positive, else 0. -/
def lowerDelta (m bench : Option ℚ) : ℚ :=
  match m, bench with
  | some a, some b => if 0 < b ∧ 0 < a then (b / a - 1) * 100 else 0
  | _, _ => 0

/-- Empty benchmark dict, as produced when there is no data source. -/
def benchEmpty : BenchMetrics := ⟨none, none, none, none, none, none⟩

/-- Stability indicator: key present with a positive value. -/
def presentPos (o : Option ℚ) : Bool :=
  match o with
  | some q => 0 < q
  | none => false

/-- compare_to_benchmarks (performance_analyzer.py lines 104-201) for an
analyzer without a Meta client: an absent benchmark set reads as the empty
dict; six polarity-aware deltas, the fixed-weight score, the tri-state
rating at thresholds 20 and -20, and the stability share. -/
def compareToBenchmarks (benchmarks : Option BenchMetrics)
    (m : CmpMetrics) : CompareResult :=
  let bm := benchmarks.getD benchEmpty
  let cmp : BenchComparison :=
    { ctr_vs_benchmark := higherDelta m.ctr bm.ctr,
      cpa_vs_benchmark := lowerDelta m.cpa bm.cpa,
      roas_vs_benchmark := higherDelta m.roas bm.roas,
      cpm_vs_benchmark := lowerDelta m.cpm bm.cpm,
      hook_rate_vs_benchmark := higherDelta m.hook_rate bm.hook_rate,
      viewthrough_rate_vs_benchmark :=
        higherDelta m.viewthrough_rate bm.viewthrough_rate }
  let score := cmp.ctr_vs_benchmark * (10 / 100) +
    cmp.cpa_vs_benchmark * (30 / 100) + cmp.roas_vs_benchmark * (30 / 100) +
    cmp.cpm_vs_benchmark * (10 / 100) +
    cmp.hook_rate_vs_benchmark * (10 / 100) +
    cmp.viewthrough_rate_vs_benchmark * (10 / 100)
  let rating :=
    if 20 ≤ score then "Above Average"
    else if score ≤ -20 then "Below Average"
    else "Average"
  let avail : ℚ :=
    (if presentPos m.ctr then 1 else 0) + (if presentPos m.cpa then 1 else 0) +
    (if presentPos m.roas then 1 else 0) + (if presentPos m.cpm then 1 else 0) +
    (if presentPos m.hook_rate then 1 else 0) +
    (if presentPos m.viewthrough_rate then 1 else 0)
  { metrics_vs_benchmark := cmp, overall_performance_score := score,
    performance_rating := rating, stability_score := avail / 6 * 100 }

/-- The all-zero delta map. -/
def zeroComparison : BenchComparison := ⟨0, 0, 0, 0, 0, 0⟩

/-- C8: with no benchmark set (absent, or present but empty),
compare_to_benchmarks returns every delta 0, weighted score 0 and rating
Average, for every metrics record. -/
theorem c8_no_benchmarks_average (m : CmpMetrics) (b : Option BenchMetrics)
    (hb : b = none ∨ b = some benchEmpty) :
    (compareToBenchmarks b m).metrics_vs_benchmark = zeroComparison ∧
    (compareToBenchmarks b m).overall_performance_score = 0 ∧
    (compareToBenchmarks b m).performance_rating = "Average" := by
  have hbm : (compareToBenchmarks b m) =
      compareToBenchmarks (some benchEmpty) m := by
    rcases hb with h | h <;> subst h <;> rfl
  rw [hbm]
  refine ⟨?_, ?_, ?_⟩
  · simp [compareToBenchmarks, benchEmpty, higherDelta, lowerDelta,
      zeroComparison]
  · simp [compareToBenchmarks, benchEmpty, higherDelta, lowerDelta]
  · simp [compareToBenchmarks, benchEmpty, higherDelta, lowerDelta]
    norm_num

/-- Witness for C8 with a concrete metrics record and no benchmark set. -/
theorem c8_no_benchmarks_witness :
    (compareToBenchmarks none
      ⟨some 2, some 5, none, some 3, some 35, some 8⟩).performance_rating =
      "Average" :=
  (c8_no_benchmarks_average ⟨some 2, some 5, none, some 3, some 35, some 8⟩
    none (Or.inl rfl)).2.2

/-- Outcome of one HTTP attempt in _make_api_request: a rate-limit
response (status 429 or the limit-reached text), a 200 success, or any
other status (which raises and leaves the wait untouched). -/
inductive ApiEvent where
  | rateLimited
  | success
  | failure
deriving DecidableEq, Repr

/-- Wait-time update of _make_api_request (meta_api_client.py lines
171-185): doubled on a rate-limit response; on a 200 the wait relaxes to
max(2, wait / 1.5); other failures raise without touching it. -/
def rateLimitStep (w : ℚ) : ApiEvent → ℚ
  | .rateLimited => w * 2
  | .success => max 2 (w / 1.5)
  | .failure => w

/-- Initial inter-request wait set in MetaApiClient.init (line 82). -/
def rateLimitInit : ℚ := 2

/-- C9: across every sequence of API responses the inter-request wait
stays at or above the 2-second floor: it starts at 2, doubling preserves
the bound, and the success-path relaxation is clamped at 2. -/
theorem c9_rate_limit_floor (evs : List ApiEvent) :
    2 ≤ evs.foldl rateLimitStep rateLimitInit := by
  have key : ∀ (w : ℚ) (e : ApiEvent), 2 ≤ w → 2 ≤ rateLimitStep w e := by
    intro w e hw
    cases e with
    | rateLimited =>
      have : (0 : ℚ) ≤ w := le_trans (by norm_num) hw
      calc (2 : ℚ) ≤ w := hw
        _ = w * 1 := by ring
        _ ≤ w * 2 := by
          apply mul_le_mul_of_nonneg_left (by norm_num) this
    | success => exact le_max_left 2 _
    | failure => exact hw
  have gen : ∀ (l : List ApiEvent) (w : ℚ), 2 ≤ w →
      2 ≤ l.foldl rateLimitStep w := by
    intro l
    induction l with
    | nil => intro w hw; simpa using hw
    | cons e rest ih => intro w hw; exact ih _ (key w e hw)
  exact gen evs rateLimitInit (le_refl 2)

/-- Per-segment benchmark sub-map; none models a missing or empty dict
(both are falsy in the source). -/
structure SegBench where
  ctr : Option ℚ
  cpa : Option ℚ
deriving DecidableEq, Repr

/-- One raw age_gender breakdown row as read by analyze_segments; numeric
fields use segment.get(key, 0), so an absent field is identified with 0. -/
structure SegmentRaw where
  age : Option String
  gender : Option String
  spend : ℚ
  impressions : ℤ
  clicks : ℤ
  conversions : ℤ
deriving DecidableEq, Repr

/-- Scored segment produced by the per-segment analysis loop. -/
structure SegAnalysis where
  segment_name : String
  segment_score : ℚ
deriving DecidableEq, Repr

/-- Character-wise normalization of the segment name
(performance_analyzer.py lines 227-228): lower-case, hyphens and
underscores become spaces, a plus sign becomes the word plus. -/
def normalizeSegChar (c : Char) : String :=
  if c = '-' ∨ c = '_' then " "
  else if c = '+' then " plus"
  else String.singleton c.toLower

/-- Segment name built from the age and gender labels with defaults
unknown, then normalized. -/
def segmentName (age gender : Option String) : String :=
  String.join
    (((age.getD "unknown") ++ " " ++ (gender.getD "unknown")).toList.map
      normalizeSegChar)

/-- Per-segment score of analyze_segments (lines 230-290): with segment
benchmarks, ctr delta (positive-benchmark guard) and cpa delta
(positive-benchmark-and-actual guard) weighted 0.3 and 0.7; without
benchmarks the score is 0.  The per-segment ctr here is clicks divided by
impressions as a raw fraction. -/
def analyzeOneSegment (lookup : String → Option SegBench)
    (s : SegmentRaw) : SegAnalysis :=
  let name := segmentName s.age s.gender
  let ctr : ℚ := if 0 < s.impressions then (s.clicks : ℚ) / s.impressions else 0
  let cpa : ℚ := if 0 < s.conversions then s.spend / (s.conversions : ℚ) else 0
  let score :=
    match lookup name with
    | none => 0
    | some sb =>
      let ctrDelta :=
        match sb.ctr with
        | some b => if 0 < b then (ctr / b - 1) * 100 else 0
        | none => 0
      let cpaDelta :=
        match sb.cpa with
        | some b => if 0 < b ∧ 0 < cpa then (b / cpa - 1) * 100 else 0
        | none => 0
      ctrDelta * (30 / 100) + cpaDelta * (70 / 100)
  { segment_name := name, segment_score := score }

/-- Stable insertion into a descending-sorted list: an element is placed
before the first element whose score does not exceed it, matching the
stability of Python sorted with reverse True. -/
def insertScoreDesc (x : SegAnalysis) : List SegAnalysis → List SegAnalysis
  | [] => [x]
  | y :: ys =>
    if y.segment_score ≤ x.segment_score then x :: y :: ys
    else y :: insertScoreDesc x ys

/-- Stable descending sort by segment score. -/
def sortByScoreDesc : List SegAnalysis → List SegAnalysis
  | [] => []
  | x :: xs => insertScoreDesc x (sortByScoreDesc xs)

/-- Best/worst selection of analyze_segments (performance_analyzer.py
lines 293-298).  With at least 3 segments, best is the first three and
worst is the last three reversed (fresh slice objects).  With fewer than
3, the source binds BOTH best_segments and worst_segments to the SAME
list object (no slicing), so worst_segments.reverse() reverses that shared
list in place and best_segments comes out reversed as well. -/
def rankSegments (sortedSegs : List SegAnalysis) :
    List String × List String :=
  if 3 ≤ sortedSegs.length then
    ((sortedSegs.take 3).map (fun s => s.segment_name),
     ((sortedSegs.drop (sortedSegs.length - 3)).reverse).map
       (fun s => s.segment_name))
  else
    (sortedSegs.reverse.map (fun s => s.segment_name),
     sortedSegs.reverse.map (fun s => s.segment_name))

/-- analyze_segments restricted to its ranking outcome: best and worst
segment-name lists; a missing age_gender breakdown yields empty lists. -/
def analyzeSegments (lookup : String → Option SegBench)
    (breakdown : Option (List SegmentRaw)) : List String × List String :=
  match breakdown with
  | none => ([], [])
  | some rows => rankSegments (sortByScoreDesc (rows.map (analyzeOneSegment lookup)))

/-- Segment benchmarks for the failing input: the female 25-34 segment has
a ctr benchmark of 1/20, the male 18-24 segment has none. -/
def demoSegLookup (name : String) : Option SegBench :=
  if name = "25 34 female" then some ⟨some (1 / 20), none⟩ else none

/-- High-scoring segment: ctr 1/10 against benchmark 1/20 gives delta 100
and score 30. -/
def segRowA : SegmentRaw := ⟨some "25-34", some "female", 50, 1000, 100, 0⟩

/-- Zero-scoring segment (no benchmark). -/
def segRowB : SegmentRaw := ⟨some "18-24", some "male", 20, 500, 10, 0⟩

/-- C5, failing evaluation: with two segments whose scores are 30 and 0,
analyze_segments returns best_segments with the WORST segment first -
the in-place reverse of the shared list object also reverses
best_segments - contradicting the claim that best stays top-first when
fewer than 3 segments exist. -/
theorem c5_failing_input_eval :
    analyzeSegments demoSegLookup (some [segRowA, segRowB]) =
      (["18 24 male", "25 34 female"], ["18 24 male", "25 34 female"]) ∧
    (analyzeOneSegment demoSegLookup segRowA).segment_score = 30 ∧
    (analyzeOneSegment demoSegLookup segRowB).segment_score = 0 := by
  have hnameA : segmentName (some "25-34") (some "female") =
      "25 34 female" := by decide
  have hnameB : segmentName (some "18-24") (some "male") =
      "18 24 male" := by decide
  have hA : analyzeOneSegment demoSegLookup segRowA =
      ⟨"25 34 female", 30⟩ := by
    simp only [analyzeOneSegment, segRowA, hnameA, demoSegLookup]
    norm_num
  have hB : analyzeOneSegment demoSegLookup segRowB =
      ⟨"18 24 male", 0⟩ := by
    simp only [analyzeOneSegment, segRowB, hnameB, demoSegLookup]
    norm_num
    decide
  refine ⟨?_, by rw [hA], by rw [hB]⟩
  simp only [analyzeSegments, List.map_cons, List.map_nil, hA, hB]
  decide

/-- Python round(x, 2), idealized over the rationals. -/
def pyRound2 (q : ℚ) : ℚ := ((round (q * 100) : ℤ) : ℚ) / 100

theorem pyRound2_idem (q : ℚ) : pyRound2 (pyRound2 q) = pyRound2 q := by
  unfold pyRound2
  rw [div_mul_cancel₀ _ (by norm_num : (100 : ℚ) ≠ 0), round_intCast]

theorem optRound2_idem (o : Option ℚ) :
    (o.map pyRound2).map pyRound2 = o.map pyRound2 := by
  cases o with
  | none => rfl
  | some q => simp [pyRound2_idem]

/-- Nested video object occasionally present inside a metrics dict; its
keys are read with .get(key, 0), so absent keys read as 0. -/
structure VideoObj where
  views : ℚ
  p25 : ℚ
  p100 : ℚ
deriving DecidableEq, Repr

/-- Top-level ad_data.metrics dict as handled by _filter_fields_for_json
and _ensure_required_metrics (pipeline_manager.py lines 628-1056): count
fields carry Python ints, money and rate fields floats; any key may be
missing.  The last nine fields form the removal denylist. -/
structure TopMetrics where
  impressions : Option ℤ
  clicks : Option ℤ
  conversions : Option ℤ
  video_3_sec_views : Option ℤ
  video_p100_watched : Option ℤ
  spend : Option ℚ
  ctr : Option ℚ
  hook_rate : Option ℚ
  viewthrough_rate : Option ℚ
  cpc : Option ℚ
  click_to_reg : Option ℚ
  video : Option VideoObj
  cpp : Option ℚ
  reach : Option ℚ
  unique_ctr : Option ℚ
  quality_ranking : Option ℚ
  conversion_values : Option ℚ
  conversion_rate_ranking : Option ℚ
  engagement_rate_ranking : Option ℚ
  roas : Option ℚ
  unique_clicks : Option ℚ
deriving DecidableEq, Repr

/-- One age_gender or platform breakdown entry; dimension labels are
carried verbatim and not modeled (the formatting loop skips them). -/
structure BEntry where
  impressions : Option ℤ
  clicks : Option ℤ
  conversions : Option ℤ
  video_3_sec_views : Option ℤ
  video_p100_watched : Option ℤ
  spend : Option ℚ
  hook_rate : Option ℚ
  viewthrough_rate : Option ℚ
  cpc : Option ℚ
  click_to_reg : Option ℚ
  video : Option VideoObj
deriving DecidableEq, Repr

/-- Creative sub-dict; the last six fields form the creative denylist,
the first two stand for the retained keys. -/
structure Creative where
  id : Option String
  image_url : Option String
  name : Option String
  object_type : Option String
  thumbnail_url : Option String
  description : Option String
  body : Option String
  title : Option String
deriving DecidableEq, Repr

/-- Breakdowns dict with the two dimension keys the sanitizer touches. -/
structure Breakdowns where
  age_gender : Option (List BEntry)
  platform : Option (List BEntry)
deriving DecidableEq, Repr

/-- ad_data sub-dict of one analyzed record. -/
structure AdData where
  metrics : Option TopMetrics
  breakdowns : Option Breakdowns
  creative : Option Creative
deriving DecidableEq, Repr

/-- One analyzed-ad record as passed to _filter_fields_for_json. -/
structure AnalyzedAd where
  ad_data : Option AdData
deriving DecidableEq, Repr

/-- metrics video p25 read in _ensure_required_metrics line 903:
metrics[video].get(p25, 0) if the video key is present, else 0. -/
def videoP25Of (m : TopMetrics) : ℚ :=
  match m.video with
  | some v => v.p25
  | none => 0

/-- metrics video p100 read at lines 893-898. -/
def videoP100Of (m : TopMetrics) : ℚ :=
  match m.video with
  | some v => v.p100
  | none => 0

/-- hook_rate after the _ensure_required_metrics metrics block (lines
891-911): computed only when the key is missing and impressions > 0,
preferring the nested video p25, then video_3_sec_views, else 0. -/
def ensHook (m : TopMetrics) : Option ℚ :=
  match m.impressions with
  | some impr =>
    if 0 < impr then
      if m.hook_rate = none then
        if 0 < videoP25Of m then
          some (pyRound2 (videoP25Of m / (impr : ℚ) * 100))
        else
          match m.video_3_sec_views with
          | some v3 =>
            if 0 < v3 then some (pyRound2 ((v3 : ℚ) / (impr : ℚ) * 100))
            else some 0
          | none => some 0
      else m.hook_rate
    else m.hook_rate
  | none => m.hook_rate

/-- viewthrough_rate after the _ensure_required_metrics metrics block
(lines 912-921), preferring the nested video p100, then
video_p100_watched, else 0. -/
def ensVtr (m : TopMetrics) : Option ℚ :=
  match m.impressions with
  | some impr =>
    if 0 < impr then
      if m.viewthrough_rate = none then
        if 0 < videoP100Of m then
          some (pyRound2 (videoP100Of m / (impr : ℚ) * 100))
        else
          match m.video_p100_watched with
          | some p =>
            if 0 < p then some (pyRound2 ((p : ℚ) / (impr : ℚ) * 100))
            else some 0
          | none => some 0
      else m.viewthrough_rate
    else m.viewthrough_rate
  | none => m.viewthrough_rate

/-- The function-scoped video_p25 binding of _ensure_required_metrics:
only assigned (line 903) when the metrics block computes a missing
hook_rate with impressions > 0; the breakdown loops read it and hit a
NameError when it was never bound. -/
def ensBound (m : TopMetrics) : Option ℚ :=
  match m.impressions with
  | some impr =>
    if 0 < impr ∧ m.hook_rate = none then some (videoP25Of m) else none
  | none => none

/-- cpc after the _ensure_required_metrics metrics block (lines 926-931):
only computed when missing and clicks > 0; spend/clicks when spend is
present and positive, else 0. -/
def ensCpc (m : TopMetrics) : Option ℚ :=
  if m.cpc = none then
    match m.clicks with
    | some c =>
      if 0 < c then
        some (match m.spend with
          | some s => if 0 < s then s / (c : ℚ) else 0
          | none => 0)
      else m.cpc
    | none => m.cpc
  else m.cpc

/-- click_to_reg after the _ensure_required_metrics metrics block (lines
933-938). -/
def ensCtrReg (m : TopMetrics) : Option ℚ :=
  if m.click_to_reg = none then
    match m.clicks with
    | some c =>
      if 0 < c then
        some (match m.conversions with
          | some cv => if 0 < cv then (cv : ℚ) / (c : ℚ) * 100 else 0
          | none => 0)
      else m.click_to_reg
    | none => m.click_to_reg
  else m.click_to_reg

/-- The whole metrics section of _ensure_required_metrics (lines 887-942):
the four derivation blocks followed by the required-metric backfill loop,
which leaves every required key present. -/
def ensureTop (m : TopMetrics) : TopMetrics :=
  { m with
      hook_rate := some ((ensHook m).getD 0),
      viewthrough_rate := some ((ensVtr m).getD 0),
      cpc := some ((ensCpc m).getD 0),
      click_to_reg := some ((ensCtrReg m).getD 0) }

/-- hook_rate produced by the recompute block of _filter_fields_for_json
(lines 671-705): when impressions > 0 the key is overwritten - from the
nested video p25, else video_3_sec_views, else 0 - and kept otherwise. -/
def fltHookVal (m : TopMetrics) (cur : Option ℚ) : Option ℚ :=
  match m.impressions with
  | some impr =>
    if 0 < impr then
      some (match m.video with
        | some v =>
          if 0 < v.p25 then pyRound2 (v.p25 / (impr : ℚ) * 100)
          else
            match m.video_3_sec_views with
            | some v3 => if 0 < v3 then pyRound2 ((v3 : ℚ) / (impr : ℚ) * 100) else 0
            | none => 0
        | none =>
          match m.video_3_sec_views with
          | some v3 => if 0 < v3 then pyRound2 ((v3 : ℚ) / (impr : ℚ) * 100) else 0
          | none => 0)
    else cur
  | none => cur

/-- viewthrough_rate produced by the same recompute block. -/
def fltVtrVal (m : TopMetrics) (cur : Option ℚ) : Option ℚ :=
  match m.impressions with
  | some impr =>
    if 0 < impr then
      some (match m.video with
        | some v =>
          if 0 < v.p100 then pyRound2 (v.p100 / (impr : ℚ) * 100)
          else
            match m.video_p100_watched with
            | some p => if 0 < p then pyRound2 ((p : ℚ) / (impr : ℚ) * 100) else 0
            | none => 0
        | none =>
          match m.video_p100_watched with
          | some p => if 0 < p then pyRound2 ((p : ℚ) / (impr : ℚ) * 100) else 0
          | none => 0)
    else cur
  | none => cur

/-- The metrics section of _filter_fields_for_json (lines 666-735) on an
already-ensured metrics dict: hook and viewthrough recompute, the deletion
of the nine denylisted keys, the required-metric backfill, and the
two-decimal rounding of every float except hook_rate and
viewthrough_rate. -/
def filterTopBlock (m : TopMetrics) : TopMetrics :=
  { m with
      hook_rate := some ((fltHookVal m m.hook_rate).getD 0),
      viewthrough_rate := some ((fltVtrVal m m.viewthrough_rate).getD 0),
      cpc := some (pyRound2 (m.cpc.getD 0)),
      click_to_reg := some (pyRound2 (m.click_to_reg.getD 0)),
      spend := m.spend.map pyRound2,
      ctr := m.ctr.map pyRound2,
      cpp := none, reach := none, unique_ctr := none,
      quality_ranking := none, conversion_values := none,
      conversion_rate_ranking := none, engagement_rate_ranking := none,
      roas := none, unique_clicks := none }

/-- breakdown video views read at _ensure_required_metrics lines 953-957. -/
def entryVideoViews (e : BEntry) : ℚ :=
  match e.video with
  | some v => v.views
  | none => 0

/-- breakdown video p100 read at lines 971-975. -/
def entryVideoP100 (e : BEntry) : ℚ :=
  match e.video with
  | some v => v.p100
  | none => 0

/-- hook_rate of one breakdown entry after _ensure_required_metrics (lines
949-966): when the key is missing, impressions > 0 and the nested video
views are positive, the source reads the function-scoped video_p25 - a
NameError when the metrics block never bound it; otherwise
video_3_sec_views, else 0. -/
def ensEntryHook (bound : Option ℚ) (e : BEntry) : Except Unit (Option ℚ) :=
  match e.impressions with
  | some impr =>
    if e.hook_rate = none ∧ 0 < impr then
      if 0 < entryVideoViews e then
        match bound with
        | none => .error ()
        | some p25 => .ok (some (pyRound2 (p25 / (impr : ℚ) * 100)))
      else
        .ok (match e.video_3_sec_views with
          | some v3 =>
            if 0 < v3 then some (pyRound2 ((v3 : ℚ) / (impr : ℚ) * 100))
            else some 0
          | none => some 0)
    else .ok e.hook_rate
  | none => .ok e.hook_rate

/-- viewthrough_rate of one breakdown entry after _ensure_required_metrics
(lines 968-983); the p100 variable is bound locally, so no NameError. -/
def ensEntryVtr (e : BEntry) : Option ℚ :=
  match e.impressions with
  | some impr =>
    if e.viewthrough_rate = none ∧ 0 < impr then
      if 0 < entryVideoP100 e then
        some (pyRound2 (entryVideoP100 e / (impr : ℚ) * 100))
      else
        match e.video_p100_watched with
        | some p =>
          if 0 < p then some (pyRound2 ((p : ℚ) / (impr : ℚ) * 100))
          else some 0
        | none => some 0
    else e.viewthrough_rate
  | none => e.viewthrough_rate

/-- cpc of one breakdown entry after _ensure_required_metrics (lines
985-990). -/
def ensEntryCpc (e : BEntry) : Option ℚ :=
  if e.cpc = none then
    match e.clicks with
    | some c =>
      if 0 < c then
        some (match e.spend with
          | some s => if 0 < s then s / (c : ℚ) else 0
          | none => 0)
      else e.cpc
    | none => e.cpc
  else e.cpc

/-- click_to_reg of one breakdown entry after _ensure_required_metrics
(lines 992-996). -/
def ensEntryCtrReg (e : BEntry) : Option ℚ :=
  if e.click_to_reg = none then
    match e.clicks with
    | some c =>
      if 0 < c then
        some (match e.conversions with
          | some cv => if 0 < cv then (cv : ℚ) / (c : ℚ) * 100 else 0
          | none => 0)
      else e.click_to_reg
    | none => e.click_to_reg
  else e.click_to_reg

/-- One breakdown entry through _ensure_required_metrics (lines 947-1000
for age_gender, identically 1002-1056 for platform): the four derivation
blocks and the required-metric backfill. -/
def ensureEntry (bound : Option ℚ) (e : BEntry) : Except Unit BEntry := do
  let h ← ensEntryHook bound e
  pure { e with
    hook_rate := some (h.getD 0),
    viewthrough_rate := some ((ensEntryVtr e).getD 0),
    cpc := some ((ensEntryCpc e).getD 0),
    click_to_reg := some ((ensEntryCtrReg e).getD 0) }

/-- The per-entry loop of _ensure_required_metrics over one breakdown
list; a NameError aborts the whole pass. -/
def ensureEntries (bound : Option ℚ) : List BEntry → Except Unit (List BEntry)
  | [] => .ok []
  | e :: rest => do
    let e1 ← ensureEntry bound e
    let r ← ensureEntries bound rest
    pure (e1 :: r)

/-- The function-scoped video_p25 binding as seen from the breakdown
loops, for a record whose metrics key may be absent. -/
def topBound : Option TopMetrics → Option ℚ
  | some m => ensBound m
  | none => none

/-- The _ensure_required_metrics loop over one optional breakdown list. -/
def ensOptEntries (bound : Option ℚ) :
    Option (List BEntry) → Except Unit (Option (List BEntry))
  | none => pure none
  | some es => do
    let es2 ← ensureEntries bound es
    pure (some es2)

/-- _ensure_required_metrics (pipeline_manager.py lines 874-1056) on one
record: the metrics section, then both breakdown loops sharing the
function-scoped video_p25 binding. -/
def ensureRequiredMetrics (a : AnalyzedAd) : Except Unit AnalyzedAd :=
  match a.ad_data with
  | none => .ok a
  | some d =>
    match d.breakdowns with
    | none => .ok ⟨some { d with metrics := d.metrics.map ensureTop }⟩
    | some bd => do
      let ag2 ← ensOptEntries (topBound d.metrics) bd.age_gender
      let pf2 ← ensOptEntries (topBound d.metrics) bd.platform
      pure ⟨some { d with
        metrics := d.metrics.map ensureTop,
        breakdowns := some ⟨ag2, pf2⟩ }⟩

/-- hook_rate of one breakdown entry after the recompute loop of
_filter_fields_for_json (lines 744-784 for age_gender, 788-829 for
platform): with a nested video object the value is rounded, in the
fallback branch it is left unrounded - a deliberate asymmetry of the
source. -/
def fltEntryHook (e : BEntry) (cur : Option ℚ) : Option ℚ :=
  match e.impressions with
  | some impr =>
    if 0 < impr then
      some (match e.video with
        | some v =>
          if 0 < v.p25 then pyRound2 (v.p25 / (impr : ℚ) * 100)
          else
            match e.video_3_sec_views with
            | some v3 => if 0 < v3 then pyRound2 ((v3 : ℚ) / (impr : ℚ) * 100) else 0
            | none => 0
        | none =>
          match e.video_3_sec_views with
          | some v3 => if 0 < v3 then (v3 : ℚ) / (impr : ℚ) * 100 else 0
          | none => 0)
    else cur
  | none => cur

/-- viewthrough_rate of one breakdown entry after the same loop. -/
def fltEntryVtr (e : BEntry) (cur : Option ℚ) : Option ℚ :=
  match e.impressions with
  | some impr =>
    if 0 < impr then
      some (match e.video with
        | some v =>
          if 0 < v.p100 then pyRound2 (v.p100 / (impr : ℚ) * 100)
          else
            match e.video_p100_watched with
            | some p => if 0 < p then pyRound2 ((p : ℚ) / (impr : ℚ) * 100) else 0
            | none => 0
        | none =>
          match e.video_p100_watched with
          | some p => if 0 < p then (p : ℚ) / (impr : ℚ) * 100 else 0
          | none => 0)
    else cur
  | none => cur

/-- The hook and viewthrough recompute applied per breakdown entry. -/
def filterEntryHookStep (e : BEntry) : BEntry :=
  { e with
      hook_rate := fltEntryHook e e.hook_rate,
      viewthrough_rate := fltEntryVtr e e.viewthrough_rate }

/-- The formatting loop applied per breakdown entry (lines 831-845 and
847-862): required-metric backfill followed by two-decimal rounding of
every float except hook_rate and viewthrough_rate. -/
def formatEntry (e : BEntry) : BEntry :=
  { e with
      hook_rate := some (e.hook_rate.getD 0),
      viewthrough_rate := some (e.viewthrough_rate.getD 0),
      cpc := some (pyRound2 (e.cpc.getD 0)),
      click_to_reg := some (pyRound2 (e.click_to_reg.getD 0)),
      spend := e.spend.map pyRound2 }

/-- The breakdowns section of _filter_fields_for_json (lines 737-862).
The formatting loop over age_gender entries sits lexically inside the
platform branch (the source misindents it at line 832), so it only runs
when a platform breakdown exists - and then raises KeyError when
age_gender is absent. -/
def filterBreakdowns (bd : Breakdowns) : Except Unit Breakdowns :=
  let ag1 := bd.age_gender.map (List.map filterEntryHookStep)
  let pf1 := bd.platform.map (List.map filterEntryHookStep)
  match pf1 with
  | none => .ok ⟨ag1, none⟩
  | some pes =>
    match ag1 with
    | none => .error ()
    | some aes => .ok ⟨some (aes.map formatEntry), some (pes.map formatEntry)⟩

/-- The creative section (lines 864-869): delete the six denylisted
creative keys. -/
def filterCreative (c : Creative) : Creative :=
  { c with
      name := none, object_type := none, thumbnail_url := none,
      description := none, body := none, title := none }

/-- The breakdowns section applied to an optional breakdowns dict. -/
def fltOptBreakdowns : Option Breakdowns → Except Unit (Option Breakdowns)
  | none => pure none
  | some bd => do
    let b2 ← filterBreakdowns bd
    pure (some b2)

/-- The per-ad body of _filter_fields_for_json (lines 659-871): deep-copy
(value semantics), _ensure_required_metrics, then the metrics, breakdowns
and creative sections. -/
def sanitizeAd (a : AnalyzedAd) : Except Unit AnalyzedAd := do
  let a1 ← ensureRequiredMetrics a
  match a1.ad_data with
  | none => pure a1
  | some d => do
    let bd2 ← fltOptBreakdowns d.breakdowns
    pure ⟨some ⟨d.metrics.map filterTopBlock, bd2,
      d.creative.map filterCreative⟩⟩

/-- _filter_fields_for_json over the whole list of analyzed ads, in input
order. -/
def filterFieldsForJson : List AnalyzedAd → Except Unit (List AnalyzedAd)
  | [] => .ok []
  | a :: rest => do
    let b ← sanitizeAd a
    let r ← filterFieldsForJson rest
    pure (b :: r)

theorem ensHook_of_some {m : TopMetrics} {x : ℚ} (h : m.hook_rate = some x) :
    ensHook m = some x := by
  unfold ensHook
  cases hi : m.impressions with
  | none => exact h
  | some impr => simp [h]

theorem ensVtr_of_some {m : TopMetrics} {x : ℚ}
    (h : m.viewthrough_rate = some x) : ensVtr m = some x := by
  unfold ensVtr
  cases hi : m.impressions with
  | none => exact h
  | some impr => simp [h]

theorem ensCpc_of_some {m : TopMetrics} {x : ℚ} (h : m.cpc = some x) :
    ensCpc m = some x := by
  unfold ensCpc
  simp [h]

theorem ensCtrReg_of_some {m : TopMetrics} {x : ℚ}
    (h : m.click_to_reg = some x) : ensCtrReg m = some x := by
  unfold ensCtrReg
  simp [h]

theorem ensBound_of_some {m : TopMetrics} {x : ℚ}
    (h : m.hook_rate = some x) : ensBound m = none := by
  unfold ensBound
  cases hi : m.impressions with
  | none => rfl
  | some impr => simp [h]

theorem ensureTop_noop {m : TopMetrics} {x1 x2 x3 x4 : ℚ}
    (h1 : m.hook_rate = some x1) (h2 : m.viewthrough_rate = some x2)
    (h3 : m.cpc = some x3) (h4 : m.click_to_reg = some x4) :
    ensureTop m = m := by
  unfold ensureTop
  rw [ensHook_of_some h1, ensVtr_of_some h2, ensCpc_of_some h3,
    ensCtrReg_of_some h4]
  cases m
  simp_all

theorem fltHookVal_congr {a b : TopMetrics} (cur : Option ℚ)
    (hi : a.impressions = b.impressions) (hv : a.video = b.video)
    (h3 : a.video_3_sec_views = b.video_3_sec_views) :
    fltHookVal a cur = fltHookVal b cur := by
  unfold fltHookVal
  rw [hi, hv, h3]

theorem fltVtrVal_congr {a b : TopMetrics} (cur : Option ℚ)
    (hi : a.impressions = b.impressions) (hv : a.video = b.video)
    (hp : a.video_p100_watched = b.video_p100_watched) :
    fltVtrVal a cur = fltVtrVal b cur := by
  unfold fltVtrVal
  rw [hi, hv, hp]

theorem fltHookVal_round_trip (m : TopMetrics) (cur : Option ℚ) :
    fltHookVal m (some ((fltHookVal m cur).getD 0)) =
      some ((fltHookVal m cur).getD 0) := by
  unfold fltHookVal
  cases hi : m.impressions with
  | none => simp
  | some i =>
    by_cases h : 0 < i
    · simp [h]
    · simp [h]

theorem fltVtrVal_round_trip (m : TopMetrics) (cur : Option ℚ) :
    fltVtrVal m (some ((fltVtrVal m cur).getD 0)) =
      some ((fltVtrVal m cur).getD 0) := by
  unfold fltVtrVal
  cases hi : m.impressions with
  | none => simp
  | some i =>
    by_cases h : 0 < i
    · simp [h]
    · simp [h]

theorem optRound2_comp (o : Option ℚ) :
    Option.map (pyRound2 ∘ pyRound2) o = Option.map pyRound2 o := by
  cases o <;> simp [pyRound2_idem]

theorem filterTopBlock_idem (m : TopMetrics) :
    filterTopBlock (filterTopBlock m) = filterTopBlock m := by
  have hcongr : ∀ cur, fltHookVal (filterTopBlock m) cur = fltHookVal m cur :=
    fun cur => fltHookVal_congr cur rfl rfl rfl
  have hcongr2 : ∀ cur, fltVtrVal (filterTopBlock m) cur = fltVtrVal m cur :=
    fun cur => fltVtrVal_congr cur rfl rfl rfl
  show TopMetrics.mk _ _ _ _ _ _ _ _ _ _ _ _ _ _ _ _ _ _ _ _ _ =
    TopMetrics.mk _ _ _ _ _ _ _ _ _ _ _ _ _ _ _ _ _ _ _ _ _
  simp only [TopMetrics.mk.injEq]
  simp [hcongr, hcongr2, fltHookVal_round_trip, fltVtrVal_round_trip,
    optRound2_idem, pyRound2_idem,
    show (filterTopBlock m).hook_rate =
      some ((fltHookVal m m.hook_rate).getD 0) from rfl,
    show (filterTopBlock m).viewthrough_rate =
      some ((fltVtrVal m m.viewthrough_rate).getD 0) from rfl,
    show (filterTopBlock m).cpc =
      some (pyRound2 (m.cpc.getD 0)) from rfl,
    show (filterTopBlock m).click_to_reg =
      some (pyRound2 (m.click_to_reg.getD 0)) from rfl,
    show (filterTopBlock m).spend = m.spend.map pyRound2 from rfl,
    show (filterTopBlock m).ctr = m.ctr.map pyRound2 from rfl,
    show (filterTopBlock m).impressions = m.impressions from rfl,
    show (filterTopBlock m).clicks = m.clicks from rfl,
    show (filterTopBlock m).conversions = m.conversions from rfl,
    show (filterTopBlock m).video_3_sec_views = m.video_3_sec_views from rfl,
    show (filterTopBlock m).video_p100_watched = m.video_p100_watched from rfl,
    show (filterTopBlock m).video = m.video from rfl,
    optRound2_comp]

theorem ensEntryHook_of_some {b : Option ℚ} {e : BEntry} {x : ℚ}
    (h : e.hook_rate = some x) : ensEntryHook b e = .ok (some x) := by
  unfold ensEntryHook
  cases hi : e.impressions with
  | none => rw [h]
  | some impr => simp [h]

theorem ensEntryVtr_of_some {e : BEntry} {x : ℚ}
    (h : e.viewthrough_rate = some x) : ensEntryVtr e = some x := by
  unfold ensEntryVtr
  cases hi : e.impressions with
  | none => exact h
  | some impr => simp [h]

theorem ensEntryCpc_of_some {e : BEntry} {x : ℚ} (h : e.cpc = some x) :
    ensEntryCpc e = some x := by
  unfold ensEntryCpc
  simp [h]

theorem ensEntryCtrReg_of_some {e : BEntry} {x : ℚ}
    (h : e.click_to_reg = some x) : ensEntryCtrReg e = some x := by
  unfold ensEntryCtrReg
  simp [h]

theorem ensureEntry_noop {b : Option ℚ} {e : BEntry} {x1 x2 x3 x4 : ℚ}
    (h1 : e.hook_rate = some x1) (h2 : e.viewthrough_rate = some x2)
    (h3 : e.cpc = some x3) (h4 : e.click_to_reg = some x4) :
    ensureEntry b e = .ok e := by
  unfold ensureEntry
  rw [ensEntryHook_of_some h1]
  rw [exceptBindOk]
  rw [ensEntryVtr_of_some h2, ensEntryCpc_of_some h3,
    ensEntryCtrReg_of_some h4]
  cases e
  simp_all [exceptPureEq]

theorem formatEntry_hook (e : BEntry) :
    (formatEntry e).hook_rate = some (e.hook_rate.getD 0) := rfl

theorem ensureEntry_format_noop (b : Option ℚ) (e : BEntry) :
    ensureEntry b (formatEntry e) = .ok (formatEntry e) :=
  ensureEntry_noop rfl rfl rfl rfl

theorem fltEntryHook_congr {a b : BEntry} (cur : Option ℚ)
    (hi : a.impressions = b.impressions) (hv : a.video = b.video)
    (h3 : a.video_3_sec_views = b.video_3_sec_views) :
    fltEntryHook a cur = fltEntryHook b cur := by
  unfold fltEntryHook
  rw [hi, hv, h3]

theorem fltEntryVtr_congr {a b : BEntry} (cur : Option ℚ)
    (hi : a.impressions = b.impressions) (hv : a.video = b.video)
    (hp : a.video_p100_watched = b.video_p100_watched) :
    fltEntryVtr a cur = fltEntryVtr b cur := by
  unfold fltEntryVtr
  rw [hi, hv, hp]

theorem fltEntryHook_isSome (e : BEntry) (x : ℚ) :
    (fltEntryHook e (some x)).isSome = true := by
  unfold fltEntryHook
  cases hi : e.impressions with
  | none => rfl
  | some i =>
    by_cases h : 0 < i
    · simp [h]
    · simp [h]

theorem fltEntryVtr_isSome (e : BEntry) (x : ℚ) :
    (fltEntryVtr e (some x)).isSome = true := by
  unfold fltEntryVtr
  cases hi : e.impressions with
  | none => rfl
  | some i =>
    by_cases h : 0 < i
    · simp [h]
    · simp [h]

theorem fltEntryHook_fix (e : BEntry) (cur : Option ℚ) :
    fltEntryHook e (fltEntryHook e cur) = fltEntryHook e cur := by
  unfold fltEntryHook
  cases hi : e.impressions with
  | none => rfl
  | some i =>
    by_cases h : 0 < i
    · simp [h]
    · simp [h]

theorem fltEntryVtr_fix (e : BEntry) (cur : Option ℚ) :
    fltEntryVtr e (fltEntryVtr e cur) = fltEntryVtr e cur := by
  unfold fltEntryVtr
  cases hi : e.impressions with
  | none => rfl
  | some i =>
    by_cases h : 0 < i
    · simp [h]
    · simp [h]

theorem fltEntryHook_round_trip (e : BEntry) (cur : Option ℚ) :
    fltEntryHook e (some ((fltEntryHook e cur).getD 0)) =
      some ((fltEntryHook e cur).getD 0) := by
  unfold fltEntryHook
  cases hi : e.impressions with
  | none => simp
  | some i =>
    by_cases h : 0 < i
    · simp [h]
    · simp [h]

theorem fltEntryVtr_round_trip (e : BEntry) (cur : Option ℚ) :
    fltEntryVtr e (some ((fltEntryVtr e cur).getD 0)) =
      some ((fltEntryVtr e cur).getD 0) := by
  unfold fltEntryVtr
  cases hi : e.impressions with
  | none => simp
  | some i =>
    by_cases h : 0 < i
    · simp [h]
    · simp [h]

theorem step_noop_of_fixed {e : BEntry}
    (hh : fltEntryHook e e.hook_rate = e.hook_rate)
    (hv : fltEntryVtr e e.viewthrough_rate = e.viewthrough_rate) :
    filterEntryHookStep e = e := by
  unfold filterEntryHookStep
  rw [hh, hv]

theorem filterEntryHookStep_idem (e : BEntry) :
    filterEntryHookStep (filterEntryHookStep e) = filterEntryHookStep e := by
  have hc : ∀ cur, fltEntryHook (filterEntryHookStep e) cur =
      fltEntryHook e cur := fun cur => fltEntryHook_congr cur rfl rfl rfl
  have hc2 : ∀ cur, fltEntryVtr (filterEntryHookStep e) cur =
      fltEntryVtr e cur := fun cur => fltEntryVtr_congr cur rfl rfl rfl
  apply step_noop_of_fixed
  · rw [show (filterEntryHookStep e).hook_rate =
        fltEntryHook e e.hook_rate from rfl, hc, fltEntryHook_fix]
  · rw [show (filterEntryHookStep e).viewthrough_rate =
        fltEntryVtr e e.viewthrough_rate from rfl, hc2, fltEntryVtr_fix]

theorem formatEntry_idem (e : BEntry) :
    formatEntry (formatEntry e) = formatEntry e := by
  show BEntry.mk _ _ _ _ _ _ _ _ _ _ _ = BEntry.mk _ _ _ _ _ _ _ _ _ _ _
  simp only [BEntry.mk.injEq]
  simp [pyRound2_idem, optRound2_comp, optRound2_idem,
    show (formatEntry e).hook_rate = some (e.hook_rate.getD 0) from rfl,
    show (formatEntry e).viewthrough_rate =
      some (e.viewthrough_rate.getD 0) from rfl,
    show (formatEntry e).cpc = some (pyRound2 (e.cpc.getD 0)) from rfl,
    show (formatEntry e).click_to_reg =
      some (pyRound2 (e.click_to_reg.getD 0)) from rfl,
    show (formatEntry e).spend = e.spend.map pyRound2 from rfl,
    show (formatEntry e).impressions = e.impressions from rfl,
    show (formatEntry e).clicks = e.clicks from rfl,
    show (formatEntry e).conversions = e.conversions from rfl,
    show (formatEntry e).video_3_sec_views = e.video_3_sec_views from rfl,
    show (formatEntry e).video_p100_watched = e.video_p100_watched from rfl,
    show (formatEntry e).video = e.video from rfl]

theorem stepFormatFix (e : BEntry) :
    formatEntry (filterEntryHookStep (formatEntry (filterEntryHookStep e))) =
      formatEntry (filterEntryHookStep e) := by
  have hc : ∀ cur, fltEntryHook (formatEntry (filterEntryHookStep e)) cur =
      fltEntryHook e cur := fun cur => fltEntryHook_congr cur rfl rfl rfl
  have hc2 : ∀ cur, fltEntryVtr (formatEntry (filterEntryHookStep e)) cur =
      fltEntryVtr e cur := fun cur => fltEntryVtr_congr cur rfl rfl rfl
  have hstep : filterEntryHookStep (formatEntry (filterEntryHookStep e)) =
      formatEntry (filterEntryHookStep e) := by
    apply step_noop_of_fixed
    · rw [show (formatEntry (filterEntryHookStep e)).hook_rate =
          some ((filterEntryHookStep e).hook_rate.getD 0) from rfl,
        show (filterEntryHookStep e).hook_rate =
          fltEntryHook e e.hook_rate from rfl, hc]
      exact fltEntryHook_round_trip e e.hook_rate
    · rw [show (formatEntry (filterEntryHookStep e)).viewthrough_rate =
          some ((filterEntryHookStep e).viewthrough_rate.getD 0) from rfl,
        show (filterEntryHookStep e).viewthrough_rate =
          fltEntryVtr e e.viewthrough_rate from rfl, hc2]
      exact fltEntryVtr_round_trip e e.viewthrough_rate
  rw [hstep, formatEntry_idem]

theorem exceptBindErr {α β ε : Type} (u : ε) (f : α → Except ε β) :
    (Except.error u >>= f) = Except.error u := rfl

theorem error_ne_ok {ε α : Type} (u : ε) (x : α) :
    Except.error u ≠ Except.ok x := fun hc => Except.noConfusion hc

theorem map_step_fix (l : List BEntry) :
    (l.map filterEntryHookStep).map filterEntryHookStep =
      l.map filterEntryHookStep := by
  induction l with
  | nil => rfl
  | cons e rest ih =>
    simp only [List.map_cons]
    rw [filterEntryHookStep_idem, ih]

theorem map_format_step_fix (l : List BEntry) :
    (((l.map filterEntryHookStep).map formatEntry).map
        filterEntryHookStep).map formatEntry =
      (l.map filterEntryHookStep).map formatEntry := by
  induction l with
  | nil => rfl
  | cons e rest ih =>
    simp only [List.map_cons]
    rw [stepFormatFix, ih]

theorem ensureEntry_ok_shape {b : Option ℚ} {e e1 : BEntry}
    (h : ensureEntry b e = .ok e1) :
    ∃ hk : Option ℚ, e1 = { e with
      hook_rate := some (hk.getD 0),
      viewthrough_rate := some ((ensEntryVtr e).getD 0),
      cpc := some ((ensEntryCpc e).getD 0),
      click_to_reg := some ((ensEntryCtrReg e).getD 0) } := by
  unfold ensureEntry at h
  cases hh : ensEntryHook b e with
  | error u =>
    rw [hh, exceptBindErr] at h
    exact absurd h (error_ne_ok u e1)
  | ok hk =>
    rw [hh, exceptBindOk] at h
    exact ⟨hk, (Except.ok.inj h).symm⟩

theorem ensureEntries_format_noop (b : Option ℚ) (l : List BEntry) :
    ensureEntries b (l.map formatEntry) = .ok (l.map formatEntry) := by
  induction l with
  | nil => rfl
  | cons e rest ih =>
    show (do
      let e1 ← ensureEntry b (formatEntry e)
      let r ← ensureEntries b (rest.map formatEntry)
      pure (e1 :: r)) = _
    rw [ensureEntry_format_noop, exceptBindOk, ih, exceptBindOk]
    rfl

theorem ensureEntries_step_noop (b b2 : Option ℚ) :
    ∀ {es es1 : List BEntry}, ensureEntries b es = .ok es1 →
      ensureEntries b2 (es1.map filterEntryHookStep) =
        .ok (es1.map filterEntryHookStep) := by
  intro es
  induction es with
  | nil =>
    intro es1 h
    have : es1 = [] := (Except.ok.inj h).symm
    subst this
    rfl
  | cons e rest ih =>
    intro es1 h
    unfold ensureEntries at h
    cases hh : ensureEntry b e with
    | error u =>
      rw [hh, exceptBindErr] at h
      exact absurd h (error_ne_ok u es1)
    | ok e1 =>
      rw [hh, exceptBindOk] at h
      cases hr : ensureEntries b rest with
      | error u =>
        rw [hr, exceptBindErr] at h
        exact absurd h (error_ne_ok u es1)
      | ok r =>
        rw [hr, exceptBindOk] at h
        have hes : es1 = e1 :: r := (Except.ok.inj h).symm
        subst hes
        obtain ⟨hk, hshape⟩ := ensureEntry_ok_shape hh
        have h1 : e1.hook_rate = some (hk.getD 0) := by rw [hshape]
        have h2 : e1.viewthrough_rate = some ((ensEntryVtr e).getD 0) := by
          rw [hshape]
        have h3 : e1.cpc = some ((ensEntryCpc e).getD 0) := by rw [hshape]
        have h4 : e1.click_to_reg = some ((ensEntryCtrReg e).getD 0) := by
          rw [hshape]
        obtain ⟨y1, hy1⟩ : ∃ y, (filterEntryHookStep e1).hook_rate =
            some y := by
          rw [show (filterEntryHookStep e1).hook_rate =
            fltEntryHook e1 e1.hook_rate from rfl, h1]
          exact Option.isSome_iff_exists.mp (fltEntryHook_isSome e1 _)
        obtain ⟨y2, hy2⟩ : ∃ y, (filterEntryHookStep e1).viewthrough_rate =
            some y := by
          rw [show (filterEntryHookStep e1).viewthrough_rate =
            fltEntryVtr e1 e1.viewthrough_rate from rfl, h2]
          exact Option.isSome_iff_exists.mp (fltEntryVtr_isSome e1 _)
        have h3s : (filterEntryHookStep e1).cpc =
            some ((ensEntryCpc e).getD 0) := by
          rw [show (filterEntryHookStep e1).cpc = e1.cpc from rfl, h3]
        have h4s : (filterEntryHookStep e1).click_to_reg =
            some ((ensEntryCtrReg e).getD 0) := by
          rw [show (filterEntryHookStep e1).click_to_reg =
            e1.click_to_reg from rfl, h4]
        have hnoop : ensureEntry b2 (filterEntryHookStep e1) =
            .ok (filterEntryHookStep e1) :=
          ensureEntry_noop hy1 hy2 h3s h4s
        show (do
          let x ← ensureEntry b2 (filterEntryHookStep e1)
          let r2 ← ensureEntries b2 (r.map filterEntryHookStep)
          pure (x :: r2)) =
          .ok (filterEntryHookStep e1 :: r.map filterEntryHookStep)
        rw [hnoop, exceptBindOk, ih hr, exceptBindOk]
        rfl

theorem ensureTop_after_block (m : TopMetrics) :
    ensureTop (filterTopBlock m) = filterTopBlock m :=
  ensureTop_noop rfl rfl rfl rfl

theorem ensBound_after_block (m : TopMetrics) :
    ensBound (filterTopBlock m) = none :=
  ensBound_of_some rfl

theorem filterCreative_idem (c : Creative) :
    filterCreative (filterCreative c) = filterCreative c := rfl

theorem optTop_ensure_noop (o : Option TopMetrics) :
    ((o.map ensureTop).map filterTopBlock).map ensureTop =
      (o.map ensureTop).map filterTopBlock := by
  cases o <;> simp [ensureTop_after_block]

theorem optTop_block_idem (o : Option TopMetrics) :
    ((o.map ensureTop).map filterTopBlock).map filterTopBlock =
      (o.map ensureTop).map filterTopBlock := by
  cases o <;> simp [filterTopBlock_idem]

theorem optCreative_idem (o : Option Creative) :
    (o.map filterCreative).map filterCreative = o.map filterCreative := by
  cases o <;> simp [filterCreative_idem]


theorem ensOptEntries_some_ok {b : Option ℚ} {es esA : List BEntry}
    (hA : ensureEntries b es = .ok esA) :
    ensOptEntries b (some es) = .ok (some esA) := by
  show (do
    let es2 ← ensureEntries b es
    pure (some es2)) = _
  rw [hA]
  rfl

theorem ensOptEntries_some_err {b : Option ℚ} {es : List BEntry} {u : Unit}
    (hA : ensureEntries b es = .error u) :
    ensOptEntries b (some es) = .error u := by
  show (do
    let es2 ← ensureEntries b es
    pure (some es2)) = _
  rw [hA]
  rfl

theorem ensureRequired_noBd_eq (mo : Option TopMetrics)
    (co : Option Creative) :
    ensureRequiredMetrics ⟨some ⟨mo, none, co⟩⟩ =
      .ok ⟨some ⟨mo.map ensureTop, none, co⟩⟩ := rfl

theorem ensureRequired_bd_eq (mo : Option TopMetrics) (co : Option Creative)
    (agO pfO : Option (List BEntry)) {agO2 pfO2 : Option (List BEntry)}
    (hA : ensOptEntries (topBound mo) agO = .ok agO2)
    (hP : ensOptEntries (topBound mo) pfO = .ok pfO2) :
    ensureRequiredMetrics ⟨some ⟨mo, some ⟨agO, pfO⟩, co⟩⟩ =
      .ok ⟨some ⟨mo.map ensureTop, some ⟨agO2, pfO2⟩, co⟩⟩ := by
  show (do
    let ag2 ← ensOptEntries (topBound mo) agO
    let pf2 ← ensOptEntries (topBound mo) pfO
    pure (⟨some ⟨mo.map ensureTop, some ⟨ag2, pf2⟩, co⟩⟩ : AnalyzedAd)) = _
  rw [hA, exceptBindOk, hP, exceptBindOk]
  rfl

theorem ensureRequired_bd_errA (mo : Option TopMetrics)
    (co : Option Creative) (agO pfO : Option (List BEntry)) {u : Unit}
    (hA : ensOptEntries (topBound mo) agO = .error u) :
    ensureRequiredMetrics ⟨some ⟨mo, some ⟨agO, pfO⟩, co⟩⟩ = .error u := by
  show (do
    let ag2 ← ensOptEntries (topBound mo) agO
    let pf2 ← ensOptEntries (topBound mo) pfO
    pure (⟨some ⟨mo.map ensureTop, some ⟨ag2, pf2⟩, co⟩⟩ : AnalyzedAd)) = _
  rw [hA]
  rfl

theorem ensureRequired_bd_errP (mo : Option TopMetrics)
    (co : Option Creative) (agO pfO : Option (List BEntry))
    {agO2 : Option (List BEntry)} {u : Unit}
    (hA : ensOptEntries (topBound mo) agO = .ok agO2)
    (hP : ensOptEntries (topBound mo) pfO = .error u) :
    ensureRequiredMetrics ⟨some ⟨mo, some ⟨agO, pfO⟩, co⟩⟩ = .error u := by
  show (do
    let ag2 ← ensOptEntries (topBound mo) agO
    let pf2 ← ensOptEntries (topBound mo) pfO
    pure (⟨some ⟨mo.map ensureTop, some ⟨ag2, pf2⟩, co⟩⟩ : AnalyzedAd)) = _
  rw [hA, exceptBindOk, hP]
  rfl

theorem filterBreakdowns_pfNone (agO : Option (List BEntry)) :
    filterBreakdowns ⟨agO, none⟩ =
      .ok ⟨agO.map (List.map filterEntryHookStep), none⟩ := rfl

theorem filterBreakdowns_both (la lp : List BEntry) :
    filterBreakdowns ⟨some la, some lp⟩ =
      .ok ⟨some ((la.map filterEntryHookStep).map formatEntry),
        some ((lp.map filterEntryHookStep).map formatEntry)⟩ := rfl

theorem filterBreakdowns_err (lp : List BEntry) :
    filterBreakdowns ⟨none, some lp⟩ = .error () := rfl

theorem fltOptBreakdowns_some_ok {bd : Breakdowns} {bd2 : Breakdowns}
    (h : filterBreakdowns bd = .ok bd2) :
    fltOptBreakdowns (some bd) = .ok (some bd2) := by
  show (do
    let b2 ← filterBreakdowns bd
    pure (some b2)) = _
  rw [h]
  rfl

theorem fltOptBreakdowns_some_err {bd : Breakdowns} {u : Unit}
    (h : filterBreakdowns bd = .error u) :
    fltOptBreakdowns (some bd) = .error u := by
  show (do
    let b2 ← filterBreakdowns bd
    pure (some b2)) = _
  rw [h]
  rfl

theorem sanitizeAd_eq {a : AnalyzedAd} {mo : Option TopMetrics}
    {bdO : Option Breakdowns} {co : Option Creative}
    (he : ensureRequiredMetrics a = .ok ⟨some ⟨mo, bdO, co⟩⟩)
    {bd2 : Option Breakdowns} (hb : fltOptBreakdowns bdO = .ok bd2) :
    sanitizeAd a = .ok ⟨some ⟨mo.map filterTopBlock, bd2,
      co.map filterCreative⟩⟩ := by
  unfold sanitizeAd
  rw [he, exceptBindOk]
  show (do
    let b2 ← fltOptBreakdowns bdO
    pure (⟨some ⟨mo.map filterTopBlock, b2,
      co.map filterCreative⟩⟩ : AnalyzedAd)) = _
  rw [hb, exceptBindOk]
  rfl

theorem sanitizeAd_err_ensure {a : AnalyzedAd} {u : Unit}
    (he : ensureRequiredMetrics a = .error u) : sanitizeAd a = .error u := by
  unfold sanitizeAd
  rw [he]
  rfl

theorem sanitizeAd_err_bd {a : AnalyzedAd} {mo : Option TopMetrics}
    {bdO : Option Breakdowns} {co : Option Creative} {u : Unit}
    (he : ensureRequiredMetrics a = .ok ⟨some ⟨mo, bdO, co⟩⟩)
    (hb : fltOptBreakdowns bdO = .error u) : sanitizeAd a = .error u := by
  unfold sanitizeAd
  rw [he, exceptBindOk]
  show (do
    let b2 ← fltOptBreakdowns bdO
    pure (⟨some ⟨mo.map filterTopBlock, b2,
      co.map filterCreative⟩⟩ : AnalyzedAd)) = _
  rw [hb]
  rfl

theorem sanitizeAd_none : sanitizeAd ⟨none⟩ = .ok ⟨none⟩ := rfl

theorem sanitizeAd_idem {a b : AnalyzedAd} (h : sanitizeAd a = .ok b) :
    sanitizeAd b = .ok b := by
  obtain ⟨dO⟩ := a
  cases dO with
  | none =>
    rw [sanitizeAd_none] at h
    have hb : b = ⟨none⟩ := (Except.ok.inj h).symm
    subst hb
    exact sanitizeAd_none
  | some d =>
    obtain ⟨mo, bdO, co⟩ := d
    cases bdO with
    | none =>
      have h1 := sanitizeAd_eq (ensureRequired_noBd_eq mo co)
        (rfl : fltOptBreakdowns none = .ok none)
      rw [h1] at h
      have hb := (Except.ok.inj h).symm
      subst hb
      have h2 := ensureRequired_noBd_eq
        ((mo.map ensureTop).map filterTopBlock) (co.map filterCreative)
      rw [optTop_ensure_noop] at h2
      have h3 := sanitizeAd_eq h2 (rfl : fltOptBreakdowns none = .ok none)
      rw [optTop_block_idem, optCreative_idem] at h3
      exact h3
    | some bd =>
      obtain ⟨agO, pfO⟩ := bd
      cases agO with
      | none =>
        cases pfO with
        | none =>
          have he1 := ensureRequired_bd_eq mo co none none
            (rfl : ensOptEntries (topBound mo) none = .ok none)
            (rfl : ensOptEntries (topBound mo) none = .ok none)
          have hfb : filterBreakdowns ⟨none, none⟩ = .ok ⟨none, none⟩ := rfl
          have h1 := sanitizeAd_eq he1 (fltOptBreakdowns_some_ok hfb)
          rw [h1] at h
          have hb := (Except.ok.inj h).symm
          subst hb
          have he2 := ensureRequired_bd_eq
            ((mo.map ensureTop).map filterTopBlock) (co.map filterCreative)
            none none
            (rfl : ensOptEntries (topBound
              ((mo.map ensureTop).map filterTopBlock)) none = .ok none)
            (rfl : ensOptEntries (topBound
              ((mo.map ensureTop).map filterTopBlock)) none = .ok none)
          rw [optTop_ensure_noop] at he2
          have h2 := sanitizeAd_eq he2 (fltOptBreakdowns_some_ok hfb)
          rw [optTop_block_idem, optCreative_idem] at h2
          exact h2
        | some esP =>
          cases hP : ensureEntries (topBound mo) esP with
          | error u =>
            have herr := sanitizeAd_err_ensure (ensureRequired_bd_errP mo co
              none (some esP)
              (rfl : ensOptEntries (topBound mo) none = .ok none)
              (ensOptEntries_some_err hP))
            rw [herr] at h
            exact absurd h (error_ne_ok _ _)
          | ok esP1 =>
            have he1 := ensureRequired_bd_eq mo co none (some esP)
              (rfl : ensOptEntries (topBound mo) none = .ok none)
              (ensOptEntries_some_ok hP)
            have herr := sanitizeAd_err_bd he1
              (fltOptBreakdowns_some_err (filterBreakdowns_err esP1))
            rw [herr] at h
            exact absurd h (error_ne_ok _ _)
      | some es =>
        cases hE : ensureEntries (topBound mo) es with
        | error u =>
          have herr := sanitizeAd_err_ensure (ensureRequired_bd_errA mo co
            (some es) pfO (ensOptEntries_some_err hE))
          rw [herr] at h
          exact absurd h (error_ne_ok _ _)
        | ok esA =>
          cases pfO with
          | none =>
            have he1 := ensureRequired_bd_eq mo co (some es) none
              (ensOptEntries_some_ok hE)
              (rfl : ensOptEntries (topBound mo) none = .ok none)
            have hfb : filterBreakdowns ⟨some esA, none⟩ =
                .ok ⟨some (esA.map filterEntryHookStep), none⟩ := rfl
            have h1 := sanitizeAd_eq he1 (fltOptBreakdowns_some_ok hfb)
            rw [h1] at h
            have hb := (Except.ok.inj h).symm
            subst hb
            have hens2 := ensOptEntries_some_ok
              (ensureEntries_step_noop (topBound mo)
                (topBound ((mo.map ensureTop).map filterTopBlock)) hE)
            have he2 := ensureRequired_bd_eq
              ((mo.map ensureTop).map filterTopBlock) (co.map filterCreative)
              (some (esA.map filterEntryHookStep)) none hens2
              (rfl : ensOptEntries (topBound
                ((mo.map ensureTop).map filterTopBlock)) none = .ok none)
            rw [optTop_ensure_noop] at he2
            have hfb2 : filterBreakdowns
                ⟨some (esA.map filterEntryHookStep), none⟩ =
                .ok ⟨some (esA.map filterEntryHookStep), none⟩ := by
              rw [filterBreakdowns_pfNone]
              show Except.ok (⟨some ((esA.map filterEntryHookStep).map
                filterEntryHookStep), none⟩ : Breakdowns) = _
              rw [map_step_fix]
            have h2 := sanitizeAd_eq he2 (fltOptBreakdowns_some_ok hfb2)
            rw [optTop_block_idem, optCreative_idem] at h2
            exact h2
          | some esP =>
            cases hP : ensureEntries (topBound mo) esP with
            | error u =>
              have herr := sanitizeAd_err_ensure (ensureRequired_bd_errP mo
                co (some es) (some esP) (ensOptEntries_some_ok hE)
                (ensOptEntries_some_err hP))
              rw [herr] at h
              exact absurd h (error_ne_ok _ _)
            | ok esP1 =>
              have he1 := ensureRequired_bd_eq mo co (some es) (some esP)
                (ensOptEntries_some_ok hE) (ensOptEntries_some_ok hP)
              have h1 := sanitizeAd_eq he1
                (fltOptBreakdowns_some_ok (filterBreakdowns_both esA esP1))
              rw [h1] at h
              have hb := (Except.ok.inj h).symm
              subst hb
              have hensA2 := ensOptEntries_some_ok
                (ensureEntries_format_noop
                  (topBound ((mo.map ensureTop).map filterTopBlock))
                  (esA.map filterEntryHookStep))
              have hensP2 := ensOptEntries_some_ok
                (ensureEntries_format_noop
                  (topBound ((mo.map ensureTop).map filterTopBlock))
                  (esP1.map filterEntryHookStep))
              have he2 := ensureRequired_bd_eq
                ((mo.map ensureTop).map filterTopBlock)
                (co.map filterCreative)
                (some ((esA.map filterEntryHookStep).map formatEntry))
                (some ((esP1.map filterEntryHookStep).map formatEntry))
                hensA2 hensP2
              rw [optTop_ensure_noop] at he2
              have hfb2 : filterBreakdowns
                  ⟨some ((esA.map filterEntryHookStep).map formatEntry),
                   some ((esP1.map filterEntryHookStep).map formatEntry)⟩ =
                  .ok ⟨some ((esA.map filterEntryHookStep).map formatEntry),
                    some ((esP1.map filterEntryHookStep).map formatEntry)⟩ := by
                rw [filterBreakdowns_both, map_format_step_fix,
                  map_format_step_fix]
              have h2 := sanitizeAd_eq he2 (fltOptBreakdowns_some_ok hfb2)
              rw [optTop_block_idem, optCreative_idem] at h2
              exact h2

/-- Required metric keys present in one breakdown entry. -/
def entrySanitized (e : BEntry) : Bool :=
  e.hook_rate.isSome && e.viewthrough_rate.isSome && e.cpc.isSome &&
  e.click_to_reg.isSome

/-- Required metric keys present and denylisted keys absent at top level. -/
def topSanitized (m : TopMetrics) : Bool :=
  m.hook_rate.isSome && m.viewthrough_rate.isSome && m.cpc.isSome &&
  m.click_to_reg.isSome && m.cpp.isNone && m.reach.isNone &&
  m.unique_ctr.isNone && m.quality_ranking.isNone &&
  m.conversion_values.isNone && m.conversion_rate_ranking.isNone &&
  m.engagement_rate_ranking.isNone && m.roas.isNone && m.unique_clicks.isNone

/-- Denylisted creative keys absent. -/
def creativeSanitized (c : Creative) : Bool :=
  c.name.isNone && c.object_type.isNone && c.thumbnail_url.isNone &&
  c.description.isNone && c.body.isNone && c.title.isNone

/-- The sanitized-output contract of the claim: required metric keys
present at top level and in every age_gender and platform entry, and the
metric and creative denylists absent. -/
def adSanitized (a : AnalyzedAd) : Bool :=
  match a.ad_data with
  | none => true
  | some d =>
    (match d.metrics with
     | some m => topSanitized m
     | none => true) &&
    (match d.breakdowns with
     | none => true
     | some bd =>
       (match bd.age_gender with
        | some l => l.all entrySanitized
        | none => true) &&
       (match bd.platform with
        | some l => l.all entrySanitized
        | none => true)) &&
    (match d.creative with
     | some c => creativeSanitized c
     | none => true)

theorem topSanitized_block (m : TopMetrics) :
    topSanitized (filterTopBlock m) = true := rfl

theorem entrySanitized_format (e : BEntry) :
    entrySanitized (formatEntry e) = true := rfl

theorem creativeSanitized_filter (c : Creative) :
    creativeSanitized (filterCreative c) = true := rfl

theorem all_entrySanitized_format (l : List BEntry) :
    (l.map formatEntry).all entrySanitized = true := by
  induction l with
  | nil => rfl
  | cons e rest ih => simp_all [entrySanitized_format]

theorem all_entrySanitized_step {b : Option ℚ} :
    ∀ {es es1 : List BEntry}, ensureEntries b es = .ok es1 →
      (es1.map filterEntryHookStep).all entrySanitized = true := by
  intro es
  induction es with
  | nil =>
    intro es1 h
    have : es1 = [] := (Except.ok.inj h).symm
    subst this
    rfl
  | cons e rest ih =>
    intro es1 h
    unfold ensureEntries at h
    cases hh : ensureEntry b e with
    | error u =>
      rw [hh, exceptBindErr] at h
      exact absurd h (error_ne_ok u es1)
    | ok e1 =>
      rw [hh, exceptBindOk] at h
      cases hr : ensureEntries b rest with
      | error u =>
        rw [hr, exceptBindErr] at h
        exact absurd h (error_ne_ok u es1)
      | ok r =>
        rw [hr, exceptBindOk] at h
        have hes : es1 = e1 :: r := (Except.ok.inj h).symm
        subst hes
        obtain ⟨hk, hshape⟩ := ensureEntry_ok_shape hh
        have h1 : e1.hook_rate = some (hk.getD 0) := by rw [hshape]
        have h2 : e1.viewthrough_rate = some ((ensEntryVtr e).getD 0) := by
          rw [hshape]
        have hsan : entrySanitized (filterEntryHookStep e1) = true := by
          unfold entrySanitized
          rw [show (filterEntryHookStep e1).hook_rate =
            fltEntryHook e1 e1.hook_rate from rfl,
            show (filterEntryHookStep e1).viewthrough_rate =
            fltEntryVtr e1 e1.viewthrough_rate from rfl,
            show (filterEntryHookStep e1).cpc = e1.cpc from rfl,
            show (filterEntryHookStep e1).click_to_reg =
            e1.click_to_reg from rfl, h1, h2, hshape]
          simp [fltEntryHook_isSome, fltEntryVtr_isSome]
        simp only [List.map_cons, List.all_cons, hsan, Bool.true_and]
        exact ih hr

theorem mem_entrySanitized_step {b : Option ℚ} {es es1 : List BEntry}
    (h : ensureEntries b es = .ok es1) :
    ∀ x ∈ es1, entrySanitized (filterEntryHookStep x) = true := by
  have hall := all_entrySanitized_step h
  rw [List.all_eq_true] at hall
  intro x hx
  exact hall _ (List.mem_map_of_mem _ hx)

theorem sanitized_of_ok {a b : AnalyzedAd} (h : sanitizeAd a = .ok b) :
    adSanitized b = true := by
  obtain ⟨dO⟩ := a
  cases dO with
  | none =>
    rw [sanitizeAd_none] at h
    have hb : b = ⟨none⟩ := (Except.ok.inj h).symm
    subst hb
    rfl
  | some d =>
    obtain ⟨mo, bdO, co⟩ := d
    cases bdO with
    | none =>
      have h1 := sanitizeAd_eq (ensureRequired_noBd_eq mo co)
        (rfl : fltOptBreakdowns none = .ok none)
      rw [h1] at h
      have hb := (Except.ok.inj h).symm
      subst hb
      unfold adSanitized
      cases mo <;> cases co <;>
        simp [topSanitized_block, creativeSanitized_filter]
    | some bd =>
      obtain ⟨agO, pfO⟩ := bd
      cases agO with
      | none =>
        cases pfO with
        | none =>
          have he1 := ensureRequired_bd_eq mo co none none
            (rfl : ensOptEntries (topBound mo) none = .ok none)
            (rfl : ensOptEntries (topBound mo) none = .ok none)
          have hfb : filterBreakdowns ⟨none, none⟩ = .ok ⟨none, none⟩ := rfl
          have h1 := sanitizeAd_eq he1 (fltOptBreakdowns_some_ok hfb)
          rw [h1] at h
          have hb := (Except.ok.inj h).symm
          subst hb
          unfold adSanitized
          cases mo <;> cases co <;>
            simp [topSanitized_block, creativeSanitized_filter]
        | some esP =>
          cases hP : ensureEntries (topBound mo) esP with
          | error u =>
            have herr := sanitizeAd_err_ensure (ensureRequired_bd_errP mo co
              none (some esP)
              (rfl : ensOptEntries (topBound mo) none = .ok none)
              (ensOptEntries_some_err hP))
            rw [herr] at h
            exact absurd h (error_ne_ok _ _)
          | ok esP1 =>
            have he1 := ensureRequired_bd_eq mo co none (some esP)
              (rfl : ensOptEntries (topBound mo) none = .ok none)
              (ensOptEntries_some_ok hP)
            have herr := sanitizeAd_err_bd he1
              (fltOptBreakdowns_some_err (filterBreakdowns_err esP1))
            rw [herr] at h
            exact absurd h (error_ne_ok _ _)
      | some es =>
        cases hE : ensureEntries (topBound mo) es with
        | error u =>
          have herr := sanitizeAd_err_ensure (ensureRequired_bd_errA mo co
            (some es) pfO (ensOptEntries_some_err hE))
          rw [herr] at h
          exact absurd h (error_ne_ok _ _)
        | ok esA =>
          cases pfO with
          | none =>
            have he1 := ensureRequired_bd_eq mo co (some es) none
              (ensOptEntries_some_ok hE)
              (rfl : ensOptEntries (topBound mo) none = .ok none)
            have hfb : filterBreakdowns ⟨some esA, none⟩ =
                .ok ⟨some (esA.map filterEntryHookStep), none⟩ := rfl
            have h1 := sanitizeAd_eq he1 (fltOptBreakdowns_some_ok hfb)
            rw [h1] at h
            have hb := (Except.ok.inj h).symm
            subst hb
            unfold adSanitized
            cases mo <;> cases co <;>
              simp [topSanitized_block, creativeSanitized_filter,
                all_entrySanitized_step hE, mem_entrySanitized_step hE]
          | some esP =>
            cases hP : ensureEntries (topBound mo) esP with
            | error u =>
              have herr := sanitizeAd_err_ensure (ensureRequired_bd_errP mo
                co (some es) (some esP) (ensOptEntries_some_ok hE)
                (ensOptEntries_some_err hP))
              rw [herr] at h
              exact absurd h (error_ne_ok _ _)
            | ok esP1 =>
              have he1 := ensureRequired_bd_eq mo co (some es) (some esP)
                (ensOptEntries_some_ok hE) (ensOptEntries_some_ok hP)
              have h1 := sanitizeAd_eq he1
                (fltOptBreakdowns_some_ok (filterBreakdowns_both esA esP1))
              rw [h1] at h
              have hb := (Except.ok.inj h).symm
              subst hb
              unfold adSanitized
              cases mo <;> cases co <;>
                simp [topSanitized_block, creativeSanitized_filter,
                  all_entrySanitized_format, entrySanitized_format]

/-- C7: the Output Field Sanitizer is idempotent - whenever
_filter_fields_for_json succeeds, running it again on its own output
returns that output unchanged - and every record it produces already has
the required metric keys present at top level and in every age_gender and
platform breakdown entry, with the denylisted metric and creative fields
absent. -/
theorem c7_sanitizer_idempotent :
    ∀ {ads out : List AnalyzedAd}, filterFieldsForJson ads = .ok out →
      filterFieldsForJson out = .ok out ∧
      ∀ a ∈ out, adSanitized a = true := by
  intro ads
  induction ads with
  | nil =>
    intro out h
    have : out = [] := (Except.ok.inj h).symm
    subst this
    exact ⟨rfl, by intro a ha; cases ha⟩
  | cons a rest ih =>
    intro out h
    unfold filterFieldsForJson at h
    cases hs : sanitizeAd a with
    | error u =>
      rw [hs, exceptBindErr] at h
      exact absurd h (error_ne_ok u out)
    | ok b =>
      rw [hs, exceptBindOk] at h
      cases hr : filterFieldsForJson rest with
      | error u =>
        rw [hr, exceptBindErr] at h
        exact absurd h (error_ne_ok u out)
      | ok r =>
        rw [hr, exceptBindOk] at h
        have hout : out = b :: r := (Except.ok.inj h).symm
        subst hout
        obtain ⟨ihr, ihs⟩ := ih hr
        refine ⟨?_, ?_⟩
        · show (do
            let b2 ← sanitizeAd b
            let r2 ← filterFieldsForJson r
            pure (b2 :: r2)) = .ok (b :: r)
          rw [sanitizeAd_idem hs, exceptBindOk, ihr, exceptBindOk]
          rfl
        · intro x hx
          cases hx with
          | head => exact sanitized_of_ok hs
          | tail _ hx2 => exact ihs x hx2

/-- A minimal analyzed ad whose creative carries denylisted fields. -/
def c7WitnessAd : AnalyzedAd :=
  ⟨some ⟨none, none, some ⟨some "cid", some "url", some "nm", some "tp",
    some "th", some "ds", some "bd", some "tt"⟩⟩⟩

/-- The sanitized form of the witness ad. -/
def c7WitnessOut : AnalyzedAd :=
  ⟨some ⟨none, none, some ⟨some "cid", some "url", none, none, none,
    none, none, none⟩⟩⟩

/-- Witness for C7: the sanitizer maps the witness ad to its sanitized
form, and a second pass returns that output unchanged. -/
theorem c7_sanitizer_witness :
    filterFieldsForJson [c7WitnessAd] = .ok [c7WitnessOut] ∧
    filterFieldsForJson [c7WitnessOut] = .ok [c7WitnessOut] ∧
    adSanitized c7WitnessOut = true := by
  have h : filterFieldsForJson [c7WitnessAd] = .ok [c7WitnessOut] := rfl
  have h2 := c7_sanitizer_idempotent h
  exact ⟨h, h2.1, h2.2 c7WitnessOut (List.mem_singleton_self _)⟩

/-- Heap-passing embedding of the _filter_fields_for_json loop (lines
657-871): the analyzed_ads list holds references (indices) into a store
of records; copy.deepcopy allocates a fresh cell initialized with the
referenced value, every mutation of the body acts on that fresh cell
(sanitizeAd), and the result list collects the fresh addresses.  Original
cells are never written. -/
def filterFieldsHeap :
    List AnalyzedAd → List Nat → Except Unit (List AnalyzedAd × List Nat)
  | store, [] => .ok (store, [])
  | store, addr :: rest =>
    match store[addr]? with
    | none => .error ()
    | some v => do
      let b ← sanitizeAd v
      let r ← filterFieldsHeap (store ++ [b]) rest
      pure (r.1, store.length :: r.2)

/-- C10: _filter_fields_for_json never mutates its input - after the
call, every original record cell holds exactly the value it held before,
and the returned list consists only of fresh cells (addresses at or past
the original store length). -/
theorem c10_sanitizer_no_mutation :
    ∀ (addrs : List Nat) (store store2 : List AnalyzedAd) (outs : List Nat),
      filterFieldsHeap store addrs = .ok (store2, outs) →
      (∀ i, i < store.length → store2[i]? = store[i]?) ∧
      (∀ o ∈ outs, store.length ≤ o) := by
  intro addrs
  induction addrs with
  | nil =>
    intro store store2 outs h
    have h' := (Except.ok.inj h).symm
    rw [Prod.ext_iff] at h'
    obtain ⟨h1, h2⟩ := h'
    simp only at h1 h2
    subst h1
    subst h2
    exact ⟨fun i _ => rfl, fun o ho => absurd ho (List.not_mem_nil o)⟩
  | cons addr rest ih =>
    intro store store2 outs h
    unfold filterFieldsHeap at h
    cases hv : store[addr]? with
    | none => rw [hv] at h; exact absurd h (error_ne_ok _ _)
    | some v =>
      rw [hv] at h
      have h2 : (sanitizeAd v >>= fun b =>
          filterFieldsHeap (store ++ [b]) rest >>= fun r =>
          (pure (r.1, store.length :: r.2) :
            Except Unit (List AnalyzedAd × List Nat))) =
          Except.ok (store2, outs) := h
      clear h
      cases hs : sanitizeAd v with
      | error u =>
        rw [hs, exceptBindErr] at h2
        exact absurd h2 (error_ne_ok _ _)
      | ok b =>
        rw [hs, exceptBindOk] at h2
        cases hr : filterFieldsHeap (store ++ [b]) rest with
        | error u =>
          rw [hr, exceptBindErr] at h2
          exact absurd h2 (error_ne_ok _ _)
        | ok pr =>
          rw [hr, exceptBindOk] at h2
          have h' := (Except.ok.inj h2).symm
          rw [Prod.ext_iff] at h'
          obtain ⟨hA, hB⟩ := h'
          simp only at hA hB
          subst hA
          subst hB
          obtain ⟨ih1, ih2⟩ := ih (store ++ [b]) pr.1 pr.2 (by rw [hr])
          constructor
          · intro i hi
            rw [ih1 i (by simp; omega)]
            exact List.getElem?_append_left hi
          · intro o ho
            cases ho with
            | head => exact le_refl _
            | tail _ ho2 =>
              have hlen := ih2 o ho2
              simp [List.length_append] at hlen
              omega

/-- Witness for C10: a one-record store; the sanitizer allocates the
fresh cell 1, the original cell 0 is unchanged, and the returned address
is fresh. -/
theorem c10_sanitizer_witness :
    filterFieldsHeap [(⟨none⟩ : AnalyzedAd)] [0] =
      .ok ([⟨none⟩, ⟨none⟩], [1]) ∧
    ([⟨none⟩, ⟨none⟩] : List AnalyzedAd)[0]? =
      ([⟨none⟩] : List AnalyzedAd)[0]? ∧
    ([(⟨none⟩ : AnalyzedAd)] : List AnalyzedAd).length ≤ 1 := by
  have h : filterFieldsHeap [(⟨none⟩ : AnalyzedAd)] [0] =
      .ok ([⟨none⟩, ⟨none⟩], [1]) := rfl
  have h2 := c10_sanitizer_no_mutation [0] [⟨none⟩] [⟨none⟩, ⟨none⟩] [1] h
  exact ⟨h, h2.1 0 (by decide), h2.2 1 (List.mem_singleton_self 1)⟩
